import Mathlib

/-
  Shallow embedding of the workflow_orchestrator package
  (store.py, templating.py, conditional.py, executor.py, engine.py).

  Python dicts are modelled as insertion-ordered association lists with
  unique keys; JSON-like runtime values as the inductive `Json`; machine
  timestamps as opaque strings (the code only ever stores `isoformat()`
  output and compares nothing); dynamic import of capabilities and the
  restricted `eval` sandbox are abstracted as function parameters, since
  reflective lookup and CPython `eval` have no shallow embedding.  All
  recursion is structural (a fuel argument is used where the source loops
  by cursor) so that every definition reduces in the kernel.
-/

set_option maxHeartbeats 1000000
set_option maxRecDepth 10000

/-! ## Python string primitives (ASCII fragment of `str` methods) -/

def pyIsSpace (c : Char) : Bool :=
  c = ' ' || c = '\t' || c = '\n' || c = '\r' || c = '\x0b' || c = '\x0c'

def trimChars (cs : List Char) : List Char :=
  ((cs.dropWhile pyIsSpace).reverse.dropWhile pyIsSpace).reverse

/-- Python `str.strip()` (ASCII whitespace). -/
def pyStrip (s : String) : String := String.mk (trimChars s.data)

def splitOnCharAux (sep : Char) : List Char → List Char → List String
  | [], acc => [String.mk acc.reverse]
  | c :: rest, acc =>
    if c = sep then String.mk acc.reverse :: splitOnCharAux sep rest []
    else splitOnCharAux sep rest (c :: acc)

/-- Python `s.split(sep)` for a one-character separator. -/
def pySplitChar (s : String) (sep : Char) : List String := splitOnCharAux sep s.data []

def isPrefixChars : List Char → List Char → Bool
  | [], _ => true
  | _ :: _, [] => false
  | a :: as, b :: bs => a = b && isPrefixChars as bs

/-- Python `s.startswith(p)`. -/
def pyStartsWith (s p : String) : Bool := isPrefixChars p.data s.data

/-- Python `s.endswith(p)`. -/
def pyEndsWith (s p : String) : Bool := isPrefixChars p.data.reverse s.data.reverse

/-- Python `s.lower()` (ASCII). -/
def pyLower (s : String) : String := String.mk (s.data.map Char.toLower)

def strDrop (s : String) (n : Nat) : String := String.mk (s.data.drop n)

def strDropRight (s : String) (n : Nat) : String := String.mk (s.data.take (s.data.length - n))

def containsChar (s : String) (c : Char) : Bool := s.data.contains c

def parseNatAux : List Char → Nat → Option Nat
  | [], acc => some acc
  | c :: rest, acc =>
    if c.isDigit then parseNatAux rest (acc * 10 + (c.toNat - 48)) else none

def parseNatChars : List Char → Option Nat
  | [] => none
  | cs => parseNatAux cs 0

/-- Python `int(s)` on the common form: optional sign, decimal digits,
surrounding whitespace (underscore separators are not modelled; none of the
verified behaviour touches them). -/
def pyIntParse (s : String) : Option Int :=
  match trimChars s.data with
  | '+' :: rest => (parseNatChars rest).map Int.ofNat
  | '-' :: rest => (parseNatChars rest).map (fun n => -(Int.ofNat n))
  | cs => (parseNatChars cs).map Int.ofNat

def natOfDigits (cs : List Char) : Nat :=
  cs.foldl (fun acc c => acc * 10 + (c.toNat - 48)) 0

/-- Python `float(s)` on the plain decimal form `[sign]digits.digits`.
IEEE binary floats are idealised as exact rationals; exponent/`inf` forms
are not modelled (no claim below exercises them). -/
def pyFloatParse (s : String) : Option Rat :=
  let cs := trimChars s.data
  let signed : Int × List Char :=
    match cs with
    | '+' :: r => (1, r)
    | '-' :: r => (-1, r)
    | r => (1, r)
  let body := signed.2
  let ip := body.takeWhile (fun c => c ≠ '.')
  match body.dropWhile (fun c => c ≠ '.') with
  | '.' :: fracs =>
    if ip.all Char.isDigit && fracs.all Char.isDigit &&
        !(fracs.contains '.') && (!ip.isEmpty || !fracs.isEmpty) then
      some ((signed.1 : Rat) *
        ((natOfDigits ip : Rat) + (natOfDigits fracs : Rat) / ((10 : Rat) ^ fracs.length)))
    else none
  | _ =>
    if body.all Char.isDigit && !body.isEmpty then
      some ((signed.1 : Rat) * (natOfDigits body : Rat))
    else none

def natToCharsAux : Nat → Nat → List Char → List Char
  | 0, _, acc => acc
  | fuel + 1, n, acc =>
    if n < 10 then Char.ofNat (48 + n) :: acc
    else natToCharsAux fuel (n / 10) (Char.ofNat (48 + n % 10) :: acc)

def natToString (n : Nat) : String := String.mk (natToCharsAux (n + 1) n [])

def intToString : Int → String
  | Int.ofNat n => natToString n
  | Int.negSucc m => "-" ++ natToString (m + 1)

/-! ## JSON-like runtime values and Python dicts -/

inductive Json where
  | null
  | bool (b : Bool)
  | num (n : Int)
  | float (q : Rat)
  | str (s : String)
  | arr (xs : List Json)
  | obj (fields : List (String × Json))

instance : Inhabited Json := ⟨Json.null⟩

abbrev Dict := List (String × Json)

def alistGet? {α : Type} : List (String × α) → String → Option α
  | [], _ => none
  | (k, v) :: rest, key => if k = key then some v else alistGet? rest key

def alistContains {α : Type} (d : List (String × α)) (k : String) : Bool :=
  (alistGet? d k).isSome

/-- Python `d[k] = v`: replace in place if present, else append (insertion order). -/
def alistSet {α : Type} : List (String × α) → String → α → List (String × α)
  | [], key, v => [(key, v)]
  | (k, w) :: rest, key, v =>
    if k = key then (k, v) :: rest else (k, w) :: alistSet rest key v

/-- Python `d.setdefault(k, v)`. -/
def alistSetdefault {α : Type} (d : List (String × α)) (k : String) (v : α) :
    List (String × α) :=
  if alistContains d k then d else d ++ [(k, v)]

/-- Python `d.pop(k, None)` (dicts have unique keys; filtering removes the one entry). -/
def alistPop {α : Type} (d : List (String × α)) (k : String) : List (String × α) :=
  d.filter (fun kv => kv.1 ≠ k)

def dictGetD (d : Dict) (k : String) : Json := (alistGet? d k).getD Json.null

/-- Python truthiness `bool(v)`. -/
def truthy : Json → Bool
  | Json.null => false
  | Json.bool b => b
  | Json.num n => n != 0
  | Json.float q => q != 0
  | Json.str s => s != ""
  | Json.arr xs => !xs.isEmpty
  | Json.obj fs => !fs.isEmpty

/-! ## Error model: one constructor per raise site / exception class -/

inductive PyErr where
  /-- `_split_path`: `ValueError("Path must be a non-empty string.")`. -/
  | valueErrorEmptyPath
  /-- `resolve_path`: `PathResolutionError` (a `KeyError` subclass). -/
  | pathNotFound (path seg : String)
  /-- `ensure_container`: `TypeError("Expected dict at ...")`. -/
  | typeErrorExpectedDict (part : String)
  /-- `write_with_metadata` on empty parts: `IndexError` from `parts[-1]`. -/
  | indexError
  /-- `.strip()` called on a truthy non-string path. -/
  | attributeError
  | templateEmptyExpr
  | templateUnknownPlaceholder (expr : String)
  | templateVarNotFound (path : String)
  | templateVarNotMapping (path : String)
  | templateIncrementBadName
  | templateIncrementMissing (name : String)
  | templateIncrementNotNumeric (name : String)
  /-- `_evaluate_expression`: store path missing, re-raised as `TemplateError`. -/
  | templateStoreMissing (path seg : String)
  | templatePythonEvalFailed (rendered : String)
  | templatePythonNotBool
  /-- `ConditionalEvaluationError("Unsupported comparator ...")`. -/
  | condUnsupportedComparator (op : String)
  /-- `ConditionalEvaluationError("Comparator branch requires compare_to.")`. -/
  | condMissingCompareTo
  /-- `_import_callable`: dotted path without a module part. -/
  | nodeBadDottedPath (p : String)
  /-- Import / protocol failures inside the abstracted capability resolver. -/
  | nodeImportFailed (p : String)
  | nodeNotMapping (id : String)
  | nodeNoMatchingOutputs (id : String)
  | nodePrimaryPathNotString (id : String)
  /-- An exception raised by the external capability itself. -/
  | capabilityError (msg : String)
  | workflowConditionalFailed (id : String)
  | workflowUnknownTarget (id target : String)

/-! ## store.py -/

/-- `_split_path`: reject empty/whitespace paths, then split on `.`,
strip each part and drop empties. -/
def split_path (path : String) : Except PyErr (List String) :=
  if pyStrip path = "" then Except.error PyErr.valueErrorEmptyPath
  else Except.ok (((pySplitChar path '.').map pyStrip).filter (fun p => p != ""))

/-- The traversal loop of `resolve_path`. -/
def resolveSegs : Json → List String → String → Except PyErr Json
  | current, [], _ => Except.ok current
  | current, part :: rest, path =>
    match current with
    | Json.obj fields =>
      match alistGet? fields part with
      | some v => resolveSegs v rest path
      | none => Except.error (PyErr.pathNotFound path part)
    | _ => Except.error (PyErr.pathNotFound path part)

/-- `resolve_path(data, path, default=, raise_on_missing=)`. -/
def resolve_path (data : Dict) (path : String) (raiseOnMissing : Bool) (default : Json) :
    Except PyErr Json :=
  match split_path path with
  | Except.error e => Except.error e
  | Except.ok parts =>
    match resolveSegs (Json.obj data) parts path with
    | Except.ok v => Except.ok v
    | Except.error e => if raiseOnMissing then Except.error e else Except.ok default

/-- `ensure_container`'s child selection: a missing or `None` entry is
replaced by a fresh dict before descending. -/
def childFor (fields : Dict) (k : String) : Json :=
  match alistGet? fields k with
  | none => Json.obj []
  | some Json.null => Json.obj []
  | some c => c

/-- `ensure_container` + `write_path` fused over the split parts: walk the
intermediate segments creating containers, then set the final key (the
written value is `deepcopy`d in Python, which is the identity here). -/
def writeSegs : Dict → List String → Json → Except PyErr Dict
  | _, [], _ => Except.error PyErr.indexError
  | fields, [k], v => Except.ok (alistSet fields k v)
  | fields, k :: r1 :: rs, v =>
    match childFor fields k with
    | Json.obj cf =>
      match writeSegs cf (r1 :: rs) v with
      | Except.ok cf2 => Except.ok (alistSet fields k (Json.obj cf2))
      | Except.error e => Except.error e
    | _ => Except.error (PyErr.typeErrorExpectedDict k)

/-- `write_path`. -/
def write_path (data : Dict) (path : String) (v : Json) : Except PyErr Dict :=
  match split_path path with
  | Except.error e => Except.error e
  | Except.ok parts => writeSegs data parts v

/-- `write_with_metadata`: write the value; if the stored value is a dict,
`setdefault` `created_at` and each provenance entry on it; otherwise build a
sibling `<key>_metadata` dict (`created_at` first, then `update(provenance)`).
`created_at` is the iso-formatted timestamp, kept opaque as a string. -/
def write_with_metadata (data : Dict) (path : String) (v : Json)
    (created_at : String) (provenance : Dict) : Except PyErr Dict :=
  match split_path path with
  | Except.error e => Except.error e
  | Except.ok parts =>
    match writeSegs data parts v with
    | Except.error e => Except.error e
    | Except.ok d1 =>
      match resolveSegs (Json.obj d1) parts path with
      | Except.error e => Except.error e
      | Except.ok target =>
        match target with
        | Json.obj tf =>
          let tf1 := alistSetdefault tf "created_at" (Json.str created_at)
          let tf2 := provenance.foldl (fun fs kv => alistSetdefault fs kv.1 kv.2) tf1
          writeSegs d1 parts (Json.obj tf2)
        | _ =>
          match parts.getLast? with
          | none => Except.error PyErr.indexError
          | some last =>
            let meta : Dict :=
              provenance.foldl (fun fs kv => alistSet fs kv.1 kv.2)
                [("created_at", Json.str created_at)]
            writeSegs d1 (parts.dropLast ++ [last ++ "_metadata"]) (Json.obj meta)

/-! ## Python comparison semantics (the fragment reachable from `_COMPARATORS`) -/

def boolInt (b : Bool) : Int := if b then 1 else 0

mutual

/-- Python `==` on JSON-shaped builtin values: total, `bool` counts as an
int, cross-type comparisons of unrelated types are `False` (never raise). -/
def pyEq : Json → Json → Bool
  | Json.bool a, Json.bool b => a == b
  | Json.bool a, Json.num m => boolInt a == m
  | Json.bool a, Json.float q => (boolInt a : Rat) == q
  | Json.num n, Json.bool b => n == boolInt b
  | Json.num n, Json.num m => n == m
  | Json.num n, Json.float q => (n : Rat) == q
  | Json.float p, Json.bool b => p == (boolInt b : Rat)
  | Json.float p, Json.num m => p == (m : Rat)
  | Json.float p, Json.float q => p == q
  | Json.null, Json.null => true
  | Json.str s, Json.str t => s == t
  | Json.arr xs, Json.arr ys => pyEqList xs ys
  | Json.obj fs, Json.obj gs =>
    pyEqDictSub fs gs && gs.all (fun kv => alistContains fs kv.1)
  | _, _ => false

def pyEqList : List Json → List Json → Bool
  | [], [] => true
  | x :: xs, y :: ys => pyEq x y && pyEqList xs ys
  | _, _ => false

def pyEqDictSub : List (String × Json) → List (String × Json) → Bool
  | [], _ => true
  | (k, v) :: rest, gs =>
    (match alistGet? gs k with
     | some w => pyEq v w
     | none => false) && pyEqDictSub rest gs
end

def charListLt : List Char → List Char → Bool
  | [], [] => false
  | [], _ :: _ => true
  | _ :: _, [] => false
  | a :: as, b :: bs =>
    if a.toNat < b.toNat then true
    else if b.toNat < a.toNat then false
    else charListLt as bs

mutual

/-- Python `<`: `some` when the types are comparable, `none` models the
`TypeError` raised between incompatible types. -/
def pyLt : Json → Json → Option Bool
  | Json.bool a, Json.bool b => some (decide (boolInt a < boolInt b))
  | Json.bool a, Json.num m => some (decide (boolInt a < m))
  | Json.bool a, Json.float q => some (decide ((boolInt a : Rat) < q))
  | Json.num n, Json.bool b => some (decide (n < boolInt b))
  | Json.num n, Json.num m => some (decide (n < m))
  | Json.num n, Json.float q => some (decide ((n : Rat) < q))
  | Json.float p, Json.bool b => some (decide (p < (boolInt b : Rat)))
  | Json.float p, Json.num m => some (decide (p < (m : Rat)))
  | Json.float p, Json.float q => some (decide (p < q))
  | Json.str s, Json.str t => some (charListLt s.data t.data)
  | Json.arr xs, Json.arr ys => pyListLt xs ys
  | _, _ => none

def pyListLt : List Json → List Json → Option Bool
  | [], [] => some false
  | [], _ :: _ => some true
  | _ :: _, [] => some false
  | x :: xs, y :: ys => if pyEq x y then pyListLt xs ys else pyLt x y
end

mutual

/-- Python `<=`, same comparability domain as `pyLt`. -/
def pyLe : Json → Json → Option Bool
  | Json.bool a, Json.bool b => some (decide (boolInt a ≤ boolInt b))
  | Json.bool a, Json.num m => some (decide (boolInt a ≤ m))
  | Json.bool a, Json.float q => some (decide ((boolInt a : Rat) ≤ q))
  | Json.num n, Json.bool b => some (decide (n ≤ boolInt b))
  | Json.num n, Json.num m => some (decide (n ≤ m))
  | Json.num n, Json.float q => some (decide ((n : Rat) ≤ q))
  | Json.float p, Json.bool b => some (decide (p ≤ (boolInt b : Rat)))
  | Json.float p, Json.num m => some (decide (p ≤ (m : Rat)))
  | Json.float p, Json.float q => some (decide (p ≤ q))
  | Json.str s, Json.str t => some (!charListLt t.data s.data)
  | Json.arr xs, Json.arr ys => pyListLe xs ys
  | _, _ => none

def pyListLe : List Json → List Json → Option Bool
  | [], _ => some true
  | _ :: _, [] => some false
  | x :: xs, y :: ys => if pyEq x y then pyListLe xs ys else pyLt x y
end

/-! ## templating.py -/

def ratToString (q : Rat) : String :=
  if q.den = 1 then intToString q.num ++ ".0"
  else intToString q.num ++ "/" ++ natToString q.den

mutual

/-- Python `repr` of builtin values as it appears inside `str(dict)` /
`str(list)` output (strings always single-quoted; escaping is not modelled —
no claim inspects stringified composites). -/
def pyRepr : Json → String
  | Json.null => "None"
  | Json.bool b => if b then "True" else "False"
  | Json.num n => intToString n
  | Json.float q => ratToString q
  | Json.str s => "'" ++ s ++ "'"
  | Json.arr xs => "[" ++ pyReprList xs ++ "]"
  | Json.obj fs => "\x7b" ++ pyReprDict fs ++ "\x7d"

def pyReprList : List Json → String
  | [] => ""
  | [x] => pyRepr x
  | x :: y :: rest => pyRepr x ++ ", " ++ pyReprList (y :: rest)

def pyReprDict : List (String × Json) → String
  | [] => ""
  | [(k, v)] => "'" ++ k ++ "': " ++ pyRepr v
  | (k, v) :: kv :: rest => "'" ++ k ++ "': " ++ pyRepr v ++ ", " ++ pyReprDict (kv :: rest)

end

/-- Python `str(value)` (top level: strings unquoted). -/
def pyStr : Json → String
  | Json.null => "None"
  | Json.bool b => if b then "True" else "False"
  | Json.num n => intToString n
  | Json.float q => ratToString q
  | Json.str s => s
  | Json.arr xs => "[" ++ pyReprList xs ++ "]"
  | Json.obj fs => "\x7b" ++ pyReprDict fs ++ "\x7d"

/-- `_stringify`: dict/list via `str()`, booleans as `true`/`false`,
`None` as `null`, everything else via `str()`. -/
def stringify : Json → String
  | Json.obj fs => pyStr (Json.obj fs)
  | Json.arr xs => pyStr (Json.arr xs)
  | Json.bool b => if b then "true" else "false"
  | Json.null => "null"
  | v => pyStr v

/-- `_coerce_literal`.  The Python function returns `None` both for the
literal `"none"` and as its parse-failure sentinel; `Json.null` plays both
roles here, exactly as in the source. -/
def coerce_literal (expr : String) : Json :=
  let lowered := pyLower expr
  if lowered = "true" then Json.bool true
  else if lowered = "false" then Json.bool false
  else if lowered = "none" then Json.null
  else if containsChar expr '.' then
    match pyFloatParse expr with
    | some q => Json.float q
    | none => Json.null
  else
    match pyIntParse expr with
    | some n => Json.num n
    | none => Json.null

/-- `_coerce_numeric`. -/
def coerce_numeric (v : Json) : Json :=
  match v with
  | Json.num _ => v
  | Json.float _ => v
  | Json.str s =>
    let lowered := pyLower s
    if lowered = "true" || lowered = "false" || lowered = "none" then v
    else if containsChar s '.' then
      match pyFloatParse s with
      | some q => Json.float q
      | none => v
    else
      match pyIntParse s with
      | some n => Json.num n
      | none => v
  | _ => v

/-- `_resolve_mapping_path`: dotted walk through the variable bank. -/
def rmGo : Json → List String → String → Except PyErr Json
  | current, [], _ => Except.ok current
  | current, p :: ps, path =>
    match current with
    | Json.obj fs =>
      match alistGet? fs p with
      | some v => rmGo v ps path
      | none => Except.error (PyErr.templateVarNotFound path)
    | _ => Except.error (PyErr.templateVarNotFound path)

def splitVarParts (path : String) : List String :=
  ((pySplitChar path '.').map pyStrip).filter (fun p => p != "")

def resolve_mapping_path (m : Dict) (path : String) : Except PyErr Json :=
  rmGo (Json.obj m) (splitVarParts path) path

/-- The walk of `_resolve_var_container` fused with `_increment_var`'s
final-key update: descend the intermediate segments (each must be a mapping
containing the segment), require the final container to be a mapping, look
up the final key, require `int`/`float` (Python `bool` is an `int`), store
`current + 1` and return old (post) or new (pre) value. -/
def increment_go : Dict → List String → String → Bool → Except PyErr (Json × Dict)
  | _, [], _, _ => Except.error PyErr.templateIncrementBadName
  | fields, [k], name, post =>
    match alistGet? fields k with
    | none => Except.error (PyErr.templateIncrementMissing name)
    | some v =>
      match v with
      | Json.num n =>
        Except.ok ((if post then Json.num n else Json.num (n + 1)),
          alistSet fields k (Json.num (n + 1)))
      | Json.float q =>
        Except.ok ((if post then Json.float q else Json.float (q + 1)),
          alistSet fields k (Json.float (q + 1)))
      | Json.bool b =>
        Except.ok ((if post then Json.bool b else Json.num (boolInt b + 1)),
          alistSet fields k (Json.num (boolInt b + 1)))
      | _ => Except.error (PyErr.templateIncrementNotNumeric name)
  | fields, k :: r1 :: rs, name, post =>
    match alistGet? fields k with
    | some (Json.obj cf) =>
      match increment_go cf (r1 :: rs) name post with
      | Except.error e => Except.error e
      | Except.ok (v, cf2) => Except.ok (v, alistSet fields k (Json.obj cf2))
    | some _ =>
      match rs with
      | [] => Except.error (PyErr.templateVarNotMapping name)
      | _ => Except.error (PyErr.templateVarNotFound name)
    | none => Except.error (PyErr.templateVarNotFound name)

/-- `_increment_var` (`_resolve_var_container` raises on an empty part
list before any descent). -/
def increment_var (vars : Dict) (name : String) (post : Bool) :
    Except PyErr (Json × Dict) :=
  increment_go vars (splitVarParts name) name post

/-- `_evaluate_expression`, threading the mutable variable bank through.
The `store.` branch re-raises `PathResolutionError` as `TemplateError`;
a `ValueError` from an empty store path propagates unwrapped. -/
def evaluate_expression (expr : String) (vars ctx : Dict) :
    Except PyErr (Json × Dict) :=
  if expr = "" then Except.error PyErr.templateEmptyExpr
  else if pyStartsWith expr "++" then
    increment_var vars (pyStrip (strDrop expr 2)) false
  else if pyEndsWith expr "++" then
    increment_var vars (pyStrip (strDropRight expr 2)) true
  else if pyStartsWith expr "vars." then
    match resolve_mapping_path vars (strDrop expr 5) with
    | Except.error e => Except.error e
    | Except.ok v => Except.ok (v, vars)
  else if pyStartsWith expr "store." then
    match resolve_path ctx (strDrop expr 6) true Json.null with
    | Except.ok v => Except.ok (v, vars)
    | Except.error (PyErr.pathNotFound p seg) =>
      Except.error (PyErr.templateStoreMissing p seg)
    | Except.error e => Except.error e
  else if alistContains vars expr then Except.ok (dictGetD vars expr, vars)
  else
    match coerce_literal expr with
    | Json.null => Except.error (PyErr.templateUnknownPlaceholder expr)
    | lit => Except.ok (lit, vars)

/-! The `PLACEHOLDER_PATTERN` scanner.  `\{\{([^{}]+)\}\}` matches `{{`,
a non-empty brace-free run, then `}}`; on a failed match the regex engine
advances one character.  The fuel argument only bounds the number of scan
steps (each consumes at least one character, so `length + 1` is enough)
and keeps the recursion structural. -/

inductive Chunk where
  | text (c : Char)
  | expr (content : List Char)

def takePH (cs : List Char) : Option (List Char × List Char) :=
  let content := cs.takeWhile (fun c => c ≠ '{' && c ≠ '}')
  match content, cs.dropWhile (fun c => c ≠ '{' && c ≠ '}') with
  | [], _ => none
  | _, '}' :: '}' :: rest2 => some (content, rest2)
  | _, _ => none

def scan_chunks : Nat → List Char → List Chunk
  | 0, _ => []
  | _ + 1, [] => []
  | fuel + 1, '{' :: '{' :: rest =>
    (match takePH rest with
     | some (content, rest2) => Chunk.expr content :: scan_chunks fuel rest2
     | none => Chunk.text '{' :: scan_chunks fuel ('{' :: rest))
  | fuel + 1, c :: rest => Chunk.text c :: scan_chunks fuel rest

def isExprChunk : Chunk → Bool
  | Chunk.expr _ => true
  | Chunk.text _ => false

def chunkChars : List Chunk → List Char
  | [] => []
  | Chunk.text c :: rest => c :: chunkChars rest
  | Chunk.expr content :: rest =>
    '{' :: '{' :: content ++ '}' :: '}' :: chunkChars rest

/-- `template[: matches[0].start()]`: the raw text before the first match. -/
def beforeFirstExpr : List Chunk → List Char
  | [] => []
  | Chunk.text c :: rest => c :: beforeFirstExpr rest
  | Chunk.expr _ :: _ => []

/-- `template[matches[0].end() :]`: everything after the first match. -/
def afterFirstExpr : List Chunk → List Char
  | [] => []
  | Chunk.text _ :: rest => afterFirstExpr rest
  | Chunk.expr _ :: rest => chunkChars rest

/-- The rendering loop of `render_string`: emit raw text, evaluate each
placeholder (mutating the bank), collect the stringified pieces, the value
of the last placeholder and the match count. -/
def render_go : List Chunk → Dict → Dict →
    Except PyErr (List String × Option Json × Nat × Dict)
  | [], vars, _ => Except.ok ([], none, 0, vars)
  | Chunk.text c :: rest, vars, ctx =>
    match render_go rest vars ctx with
    | Except.error e => Except.error e
    | Except.ok (parts, lastv, cnt, vars1) =>
      Except.ok (String.mk [c] :: parts, lastv, cnt, vars1)
  | Chunk.expr content :: rest, vars, ctx =>
    match evaluate_expression (pyStrip (String.mk content)) vars ctx with
    | Except.error e => Except.error e
    | Except.ok (v, vars1) =>
      match render_go rest vars1 ctx with
      | Except.error e => Except.error e
      | Except.ok (parts, lastv, cnt, vars2) =>
        Except.ok (stringify v :: parts, some (lastv.getD v), cnt + 1, vars2)

/-- `render_string`: no placeholder → the template itself; exactly one
placeholder with blank surroundings → the evaluated value with its native
type; otherwise the concatenated string. -/
def render_string (template : String) (vars ctx : Dict) :
    Except PyErr (Json × Dict) :=
  let chunks := scan_chunks (template.data.length + 1) template.data
  if (chunks.filter isExprChunk).isEmpty then Except.ok (Json.str template, vars)
  else
    match render_go chunks vars ctx with
    | Except.error e => Except.error e
    | Except.ok (parts, lastv, cnt, vars1) =>
      if cnt = 1 && pyStrip (String.mk (beforeFirstExpr chunks)) = ""
          && pyStrip (String.mk (afterFirstExpr chunks)) = "" then
        Except.ok (lastv.getD Json.null, vars1)
      else Except.ok (Json.str (parts.foldl (fun a b => a ++ b) ""), vars1)

/-! ## conditional.py -/

structure BranchCondition where
  op : Option String
  compare_to : Option String
  python : Option String

structure ConditionalBranch where
  value : Option String
  condition : Option BranchCondition
  goto : String

structure ConditionalNode where
  id : String
  branches : List ConditionalBranch
  else_goto : String

/-- The restricted `eval` sandbox of `evaluate_python_expression` is not
shallowly embeddable (it runs CPython `eval`); it is abstracted as a
parameter receiving the rendered expression text, the branch operand and
the numeric-coerced bank, returning the evaluation result or an exception. -/
abbrev PyEval := String → Json → Dict → Dict → Except PyErr Json

/-- Python truthiness of an `Optional[str]` field (`if branch.value:`). -/
def optStrTruthy : Option String → Bool
  | none => false
  | some s => s != ""

/-- `_attempt_literal` (a verbatim duplicate of `_coerce_literal` in the
source, including the `None`-as-failure sentinel). -/
def attempt_literal (expr : String) : Json := coerce_literal expr

/-- The variable-bank walk of `_resolve_operand` (a missing segment or a
non-mapping raises `KeyError`, caught by the caller). -/
def walkVars : Json → List String → Option Json
  | current, [] => some current
  | current, p :: ps =>
    match current with
    | Json.obj fs =>
      match alistGet? fs p with
      | some v => walkVars v ps
      | none => none
    | _ => none

/-- `_resolve_operand`: non-strings pass through; otherwise try the bank
(dotted), then the store, then literal coercion (whose `None` result is
indistinguishable from failure, so `"none"` falls through to the raw
string), else the raw string.  A `ValueError` from `resolve_path` cannot
occur here: an all-whitespace string already resolved to the whole bank. -/
def resolve_operand (value : Json) (vars ctx : Dict) : Json :=
  match value with
  | Json.str s =>
    (match walkVars (Json.obj vars) (splitVarParts s) with
     | some v => v
     | none =>
       match resolve_path ctx s true Json.null with
       | Except.ok v => v
       | Except.error _ =>
         match attempt_literal s with
         | Json.null => Json.str s
         | lit => lit)
  | v => v

/-- `evaluate_python_expression`: render the expression (mutating the
bank), coerce to text, run the sandbox on numeric-coerced bindings; any
sandbox exception is wrapped as a `TemplateError`, and a non-boolean
result is a `TemplateError`. -/
def evaluate_python_expression (pyEval : PyEval) (expression : String)
    (value : Json) (vars ctx : Dict) : Except PyErr (Bool × Dict) :=
  match render_string expression vars ctx with
  | Except.error e => Except.error e
  | Except.ok (rendered, vars1) =>
    let renderedS := match rendered with
      | Json.str s => s
      | v => pyStr v
    let safeVars := vars1.map (fun kv => (kv.1, coerce_numeric kv.2))
    match pyEval renderedS (coerce_numeric value) safeVars ctx with
    | Except.error _ => Except.error (PyErr.templatePythonEvalFailed renderedS)
    | Except.ok (Json.bool bv) => Except.ok (bv, vars1)
    | Except.ok _ => Except.error PyErr.templatePythonNotBool

def comparators : List String := ["==", "!=", ">", ">=", "<", "<="]

/-- `_COMPARATORS[op](left, right)`; `none` models the `TypeError` the
caller catches. -/
def apply_comparator (op : String) (a b : Json) : Option Bool :=
  if op = "==" then some (pyEq a b)
  else if op = "!=" then some (!pyEq a b)
  else if op = ">" then pyLt b a
  else if op = ">=" then pyLe b a
  else if op = "<" then pyLt a b
  else pyLe a b

/-- `_branch_matches`, threading the mutable bank.  A comparator whose
application raises `TypeError` resolves to `False` (no match). -/
def branch_matches (pyEval : PyEval) (b : ConditionalBranch) (vars ctx : Dict) :
    Except PyErr (Bool × Dict) :=
  match b.condition with
  | none => Except.ok (true, vars)
  | some c =>
    if optStrTruthy c.python then
      match
        (if optStrTruthy b.value then
          match render_string (b.value.getD "") vars ctx with
          | Except.error e => Except.error e
          | Except.ok (rendered, vars1) =>
            Except.ok (resolve_operand rendered vars1 ctx, vars1)
        else (Except.ok (Json.null, vars) : Except PyErr (Json × Dict))) with
      | Except.error e => Except.error e
      | Except.ok (value, vars1) =>
        evaluate_python_expression pyEval (c.python.getD "") value vars1 ctx
    else
      match c.op with
      | none => Except.error (PyErr.condUnsupportedComparator "None")
      | some op =>
        if !(comparators.contains op) then
          Except.error (PyErr.condUnsupportedComparator op)
        else
          match c.compare_to with
          | none => Except.error PyErr.condMissingCompareTo
          | some cmpTo =>
            match render_string (b.value.getD "") vars ctx with
            | Except.error e => Except.error e
            | Except.ok (lr, vars1) =>
              let left := resolve_operand lr vars1 ctx
              match render_string cmpTo vars1 ctx with
              | Except.error e => Except.error e
              | Except.ok (rr, vars2) =>
                let right := resolve_operand rr vars2 ctx
                Except.ok ((apply_comparator op left right).getD false, vars2)

/-- The branch loop of `evaluate_conditional`. -/
def evaluate_conditional_go (pyEval : PyEval) (node : ConditionalNode) (ctx : Dict) :
    List ConditionalBranch → Dict → Except PyErr (String × Dict)
  | [], vars => Except.ok (node.else_goto, vars)
  | b :: rest, vars =>
    match branch_matches pyEval b vars ctx with
    | Except.error e => Except.error e
    | Except.ok (true, vars1) => Except.ok (b.goto, vars1)
    | Except.ok (false, vars1) => evaluate_conditional_go pyEval node ctx rest vars1

/-- `evaluate_conditional`: first matching branch wins, else `else_goto`. -/
def evaluate_conditional (pyEval : PyEval) (node : ConditionalNode)
    (vars ctx : Dict) : Except PyErr (String × Dict) :=
  evaluate_conditional_go pyEval node ctx node.branches vars

/-! ## executor.py -/

structure ExecuteNode where
  id : String
  node : String
  inputs : List (String × String)
  outputs : List (String × String)
  skip_if_output_present : Bool

/-- The result of one `execute_node` call.  Python mutates `context` (and
the bank) in place, so an exception leaves the caller holding the mutated
dicts: the `err` constructor carries that observable state. -/
inductive ExecOutcome where
  | done (vars ctx : Dict) (status : Dict)
  | err (e : PyErr) (vars ctx : Dict)

/-- A resolved capability: receives the context (with the bank installed at
`"vars"`) and the rendered keyword inputs; returns the possibly-mutated
context together with a result or a raised exception.  In-place mutation of
the shared bank object is reflected back through the `"vars"` entry of the
returned context (replacing the entry with a fresh dict — which Python
aliasing would not propagate — is not distinguishable in this model and is
not exercised by any claim). -/
abbrev CapFn := Dict → Dict → Dict × Except PyErr Json

/-- `importlib.import_module` + protocol checks, abstracted. -/
abbrev Caps := String → Except PyErr CapFn

/-- The module part of `dotted_path.rpartition(".")`. -/
def importModulePart (s : String) : String :=
  let rev := s.data.reverse
  let afterRev := rev.takeWhile (fun c => c ≠ '.')
  if afterRev.length = rev.length then ""
  else String.mk ((rev.drop (afterRev.length + 1)).reverse)

/-- `key.split(".", 1)[1]` (callers guard on a `"vars."` prefix, so the
dot exists). -/
def afterFirstDot (s : String) : String :=
  String.mk ((s.data.dropWhile (fun c => c ≠ '.')).drop 1)

/-- `next((k for k in node.outputs.keys() if not k.endswith("_key")), None)`. -/
def primary_output (node : ExecuteNode) : Option String :=
  (node.outputs.find? (fun kv => !pyEndsWith kv.1 "_key")).map (fun kv => kv.1)

def lookupTemplate (outs : List (String × String)) (k : String) : String :=
  (alistGet? outs k).getD ""

/-- `resolve_path` on a possibly non-string rendered path: a falsy
non-string raises `ValueError` from `_split_path`, a truthy non-string
raises `AttributeError` from `.strip()`. -/
def resolve_path_any (ctx : Dict) (p : Json) : Except PyErr Json :=
  match p with
  | Json.str s => resolve_path ctx s true Json.null
  | v => if truthy v then Except.error PyErr.attributeError
         else Except.error PyErr.valueErrorEmptyPath

/-- The loop of `_sync_outputs_on_skip`: re-render every output template,
reapply `vars.`-prefixed ones into the bank, and refresh bank entries whose
key already exists when the rendered value is a string path (falling back
to the rendered value when the path does not resolve). -/
def sync_outputs_go (ctx : Dict) : List (String × String) → Dict → Except PyErr Dict
  | [], vars => Except.ok vars
  | (key, template) :: rest, vars =>
    match render_string template vars ctx with
    | Except.error e => Except.error e
    | Except.ok (rendered, vars1) =>
      if pyStartsWith key "vars." then
        sync_outputs_go ctx rest (alistSet vars1 (afterFirstDot key) rendered)
      else if alistContains vars1 key then
        match rendered with
        | Json.str rs =>
          (match resolve_path ctx rs true Json.null with
           | Except.ok v => sync_outputs_go ctx rest (alistSet vars1 key v)
           | Except.error (PyErr.pathNotFound _ _) =>
             sync_outputs_go ctx rest (alistSet vars1 key (Json.str rs))
           | Except.error e => Except.error e)
        | _ => sync_outputs_go ctx rest vars1
      else sync_outputs_go ctx rest vars1

def sync_outputs_on_skip (node : ExecuteNode) (vars ctx : Dict) : Except PyErr Dict :=
  sync_outputs_go ctx node.outputs vars

/-- The skip phase of `execute_node` (source lines 43–53): returns
`some vars'` when short-circuiting.  The bank passed to the render is a
`deepcopy`, so its mutations are discarded; `PathResolutionError`/`KeyError`
from the resolve are swallowed, everything else propagates. -/
def skip_check (node : ExecuteNode) (vars ctx : Dict) : Except PyErr (Option Dict) :=
  match primary_output node with
  | none => Except.ok none
  | some pk =>
    if node.skip_if_output_present && pk != "" then
      match render_string (lookupTemplate node.outputs pk) vars ctx with
      | Except.error e => Except.error e
      | Except.ok (rendered, _) =>
        match resolve_path_any ctx rendered with
        | Except.ok existing =>
          if truthy existing then
            match sync_outputs_on_skip node vars ctx with
            | Except.error e => Except.error e
            | Except.ok vars2 => Except.ok (some vars2)
          else Except.ok none
        | Except.error (PyErr.pathNotFound _ _) => Except.ok none
        | Except.error e => Except.error e
    else Except.ok none

/-- `_resolve_input_value`. -/
def resolve_input_value (value : Json) (ctx : Dict) : Except PyErr Json :=
  match value with
  | Json.str s =>
    (match resolve_path ctx s true Json.null with
     | Except.ok v => Except.ok v
     | Except.error (PyErr.pathNotFound _ _) => Except.ok (Json.str s)
     | Except.error e => Except.error e)
  | v => Except.ok v

/-- The input-rendering loop of `execute_node` (mutating the bank). -/
def render_inputs : List (String × String) → Dict → Dict → Except PyErr (Dict × Dict)
  | [], vars, _ => Except.ok ([], vars)
  | (k, template) :: rest, vars, ctx =>
    match render_string template vars ctx with
    | Except.error e => Except.error e
    | Except.ok (rendered, vars1) =>
      match resolve_input_value rendered ctx with
      | Except.error e => Except.error e
      | Except.ok v =>
        match render_inputs rest vars1 ctx with
        | Except.error e => Except.error e
        | Except.ok (tail, vars2) => Except.ok ((k, v) :: tail, vars2)

/-- `next((key for key in node.outputs if key in result), None)`. -/
def select_primary (outputs : List (String × String)) (res : Dict) : Option String :=
  (outputs.find? (fun kv => alistContains res kv.1)).map (fun kv => kv.1)

/-- The provenance comprehension: render the template of every output key
ending in `_key`, in declaration order, threading the bank. -/
def prov_go : List (String × String) → Dict → Dict → Except PyErr (Dict × Dict)
  | [], vars, _ => Except.ok ([], vars)
  | (k, template) :: rest, vars, ctx =>
    if pyEndsWith k "_key" then
      match render_string template vars ctx with
      | Except.error e => Except.error e
      | Except.ok (r, vars1) =>
        match prov_go rest vars1 ctx with
        | Except.error e => Except.error e
        | Except.ok (tail, vars2) => Except.ok ((k, r) :: tail, vars2)
    else prov_go rest vars ctx

def isObj : Json → Bool
  | Json.obj _ => true
  | _ => false

/-- `stored_obj[key] = v`: in-place mutation of the dict resolved at
`path`, modelled as a functional update of the context at that path.  (If a
later `vars.`-output write replaced the object at `path`, Python's stale
reference would diverge from this model; no verified behaviour rewrites the
primary path inside the loop.)  The fallback branches are unreachable when
the earlier write succeeded. -/
def store_child_set (ctx : Dict) (path : String) (key : String) (v : Json) : Dict :=
  match split_path path with
  | Except.error _ => ctx
  | Except.ok parts =>
    match resolveSegs (Json.obj ctx) parts path with
    | Except.ok (Json.obj fs) =>
      (match writeSegs ctx parts (Json.obj (alistSet fs key v)) with
       | Except.ok ctx2 => ctx2
       | Except.error _ => ctx)
    | _ => ctx

inductive LoopRes where
  | ok (vars ctx : Dict)
  | err (e : PyErr) (vars ctx : Dict)

/-- The output-reconciliation loop (source lines 129–150). -/
def out_loop (pk primary_path : String) (pim : Bool) (res : Dict) :
    List (String × String) → Dict → Dict → LoopRes
  | [], vars, ctx => LoopRes.ok vars ctx
  | (key, template) :: rest, vars, ctx =>
    if pyStartsWith key "vars." then
      match render_string template vars ctx with
      | Except.error e => LoopRes.err e vars ctx
      | Except.ok (rendered, vars1) =>
        match write_path ctx key rendered with
        | Except.error e => LoopRes.err e vars1 ctx
        | Except.ok ctx2 =>
          out_loop pk primary_path pim res rest
            (alistSet vars1 (afterFirstDot key) rendered) ctx2
    else if key == pk || pyEndsWith key "_key" then
      out_loop pk primary_path pim res rest vars ctx
    else if alistContains res key then
      if pim then
        let ctx2 := store_child_set ctx primary_path key (dictGetD res key)
        let vars1 := if alistContains vars key then
            alistSet vars key (dictGetD res key) else vars
        out_loop pk primary_path pim res rest vars1 ctx2
      else out_loop pk primary_path pim res rest vars ctx
    else
      match render_string template vars ctx with
      | Except.error e => LoopRes.err e vars ctx
      | Except.ok (rendered, vars1) =>
        let ctx2 := if pim then store_child_set ctx primary_path key rendered else ctx
        let vars2 := if alistContains vars1 key then alistSet vars1 key rendered else vars1
        out_loop pk primary_path pim res rest vars2 ctx2

def stored_fields (ctx : Dict) (path : String) : Dict :=
  match split_path path with
  | Except.error _ => []
  | Except.ok parts =>
    match resolveSegs (Json.obj ctx) parts path with
    | Except.ok (Json.obj fs) => fs
    | _ => []

/-- Final bank refresh (source lines 152–155): every bank entry whose name
is a field of the stored primary object is overwritten from it. -/
def refresh_from_stored (vars stored : Dict) : Dict :=
  vars.map (fun kv => (kv.1, (alistGet? stored kv.1).getD kv.2))

def node_finish (node : ExecuteNode) (pk primary_path : String) (pim : Bool)
    (res : Dict) (vars ctx : Dict) : ExecOutcome :=
  match out_loop pk primary_path pim res node.outputs vars ctx with
  | LoopRes.err e v c => ExecOutcome.err e v c
  | LoopRes.ok v c =>
    let v2 := if pim then refresh_from_stored v (stored_fields c primary_path) else v
    ExecOutcome.done v2 c
      [("status", Json.str "completed"),
       ("outputs", Json.arr (res.map (fun kv => Json.str kv.1)))]

/-- Output reconciliation (source lines 94–157, after the result mapping
check): select the first declared output key present in the result, render
its destination path (must be a string), render provenance from `_key`
outputs, write the primary (bank+mirror for `vars.` paths, metadata write
otherwise), run the output loop then the final bank refresh. -/
def reconcile_outputs (node : ExecuteNode) (vars ctx : Dict) (ts : String)
    (res : Dict) : ExecOutcome :=
  match select_primary node.outputs res with
  | none => ExecOutcome.err (PyErr.nodeNoMatchingOutputs node.id) vars ctx
  | some pk =>
    match render_string (lookupTemplate node.outputs pk) vars ctx with
    | Except.error e => ExecOutcome.err e vars ctx
    | Except.ok (ppv, vars1) =>
      match ppv with
      | Json.str primary_path =>
        (match prov_go node.outputs vars1 ctx with
         | Except.error e => ExecOutcome.err e vars1 ctx
         | Except.ok (prov, vars2) =>
           if pyStartsWith primary_path "vars." then
             match write_path ctx primary_path (dictGetD res pk) with
             | Except.error e => ExecOutcome.err e vars2 ctx
             | Except.ok ctx3 =>
               let vars5 := alistSet vars2 (afterFirstDot primary_path) (dictGetD res pk)
               match resolve_path ctx3 primary_path true Json.null with
               | Except.error e => ExecOutcome.err e vars5 ctx3
               | Except.ok stored =>
                 node_finish node pk primary_path (isObj stored) res vars5 ctx3
           else
             match write_with_metadata ctx primary_path (dictGetD res pk) ts prov with
             | Except.error e => ExecOutcome.err e vars2 ctx
             | Except.ok ctx3 =>
               match resolve_path ctx3 primary_path true Json.null with
               | Except.error e => ExecOutcome.err e vars2 ctx3
               | Except.ok stored =>
                 node_finish node pk primary_path (isObj stored) res vars2 ctx3)
      | _ => ExecOutcome.err (PyErr.nodePrimaryPathNotString node.id) vars1 ctx

/-- The bank after the capability call: Python's `workflow_vars` aliases
the object installed at `context["vars"]`, so in-place mutations are read
back from there; anything else leaves the bank as rendered. -/
def capVarsAfter (ctxA vars3 : Dict) : Dict :=
  match alistGet? ctxA "vars" with
  | some (Json.obj w) => w
  | _ => vars3

/-- `execute_node`: skip phase, capability resolution, input rendering,
the scoped bank exposure around the capability call (inserted at
`context["vars"]`, popped in `finally` on every exit path), result-shape
check, then output reconciliation.  `ts` is the `datetime.now(utc)`
captured after the call. -/
def execute_node (caps : Caps) (node : ExecuteNode) (vars ctx : Dict)
    (ts : String) : ExecOutcome :=
  match skip_check node vars ctx with
  | Except.error e => ExecOutcome.err e vars ctx
  | Except.ok (some vars2) =>
    ExecOutcome.done vars2 ctx
      [("status", Json.str "skipped"), ("reason", Json.str "output already present")]
  | Except.ok none =>
    if importModulePart node.node = "" then
      ExecOutcome.err (PyErr.nodeBadDottedPath node.node) vars ctx
    else
      match caps node.node with
      | Except.error e => ExecOutcome.err e vars ctx
      | Except.ok capFn =>
        match render_inputs node.inputs vars ctx with
        | Except.error e => ExecOutcome.err e vars ctx
        | Except.ok (ri, vars3) =>
          let callRes := capFn (alistSet ctx "vars" (Json.obj vars3)) ri
          let vars4 := capVarsAfter callRes.1 vars3
          let ctx2 := alistPop callRes.1 "vars"
          match callRes.2 with
          | Except.error e => ExecOutcome.err e vars4 ctx2
          | Except.ok (Json.obj resObj) => reconcile_outputs node vars4 ctx2 ts resObj
          | Except.ok _ => ExecOutcome.err (PyErr.nodeNotMapping node.id) vars4 ctx2

/-! ## engine.py -/

inductive WNode where
  | exec (n : ExecuteNode)
  | cond (n : ConditionalNode)

instance : Inhabited WNode := ⟨WNode.cond ⟨"", [], ""⟩⟩

structure WorkflowConfig where
  name : String
  code_type : String
  vars : Dict
  flow : List WNode

/-- `{node.id: idx for idx, node in enumerate(config.flow)}`. -/
def node_index (flow : List WNode) : List (String × Nat) :=
  flow.enum.foldl
    (fun acc p =>
      match p.2 with
      | WNode.exec n => alistSet acc n.id p.1
      | WNode.cond n => alistSet acc n.id p.1) []

/-- Which exceptions the engine's `except ConditionalEvaluationError`
clause catches (and re-raises as `WorkflowExecutionError`). -/
def isCondEvalError : PyErr → Bool
  | PyErr.condUnsupportedComparator _ => true
  | PyErr.condMissingCompareTo => true
  | _ => false

inductive EngineOutcome where
  | done (vars ctx : Dict)
  | err (e : PyErr) (vars ctx : Dict)
  | fuelOut (vars ctx : Dict) (pc : Nat)

/-- The while-loop of `execute_workflow` (source lines 39–62): the program
counter starts at 0; an execute node advances it by one; a conditional node
routes via `node_index`, `"END"` breaks, an unknown target is a fatal
`WorkflowExecutionError`.  `fuel` only bounds the number of iterations
modelled (the Python loop may run forever); `clock` supplies the ambient
timestamp each execute step reads. -/
def execute_loop (caps : Caps) (pyEval : PyEval) (clock : Nat → String)
    (flow : List WNode) : Nat → Dict → Dict → Nat → EngineOutcome
  | fuel, vars, ctx, pc =>
    if pc ≥ flow.length then EngineOutcome.done vars ctx
    else
      match fuel with
      | 0 => EngineOutcome.fuelOut vars ctx pc
      | fuel' + 1 =>
        match flow.getD pc default with
        | WNode.exec n =>
          (match execute_node caps n vars ctx (clock fuel) with
           | ExecOutcome.done v c _ => execute_loop caps pyEval clock flow fuel' v c (pc + 1)
           | ExecOutcome.err e v c => EngineOutcome.err e v c)
        | WNode.cond n =>
          match evaluate_conditional pyEval n vars ctx with
          | Except.error e =>
            if isCondEvalError e then
              EngineOutcome.err (PyErr.workflowConditionalFailed n.id) vars ctx
            else EngineOutcome.err e vars ctx
          | Except.ok (next_id, vars1) =>
            if next_id = "END" then EngineOutcome.done vars1 ctx
            else
              match alistGet? (node_index flow) next_id with
              | none => EngineOutcome.err (PyErr.workflowUnknownTarget n.id next_id) vars1 ctx
              | some j => execute_loop caps pyEval clock flow fuel' vars1 ctx j

/-! ## Association-list and store lemmas -/

theorem alistGet_set_self {α : Type} (d : List (String × α)) (k : String) (v : α) :
    alistGet? (alistSet d k v) k = some v := by
  induction d with
  | nil => simp [alistSet, alistGet?]
  | cons hd tl ih =>
    obtain ⟨k0, v0⟩ := hd
    by_cases h : k0 = k
    · subst h; simp [alistSet, alistGet?]
    · simp [alistSet, alistGet?, h, ih]

theorem alistGet_set_other {α : Type} (d : List (String × α)) (k key : String) (v : α)
    (h : k ≠ key) : alistGet? (alistSet d k v) key = alistGet? d key := by
  induction d with
  | nil => simp [alistSet, alistGet?, h]
  | cons hd tl ih =>
    obtain ⟨k0, v0⟩ := hd
    by_cases h0 : k0 = k
    · subst h0; simp [alistSet, alistGet?, h]
    · simp [alistSet, alistGet?, h0, ih]

theorem alistGet_append_left {α : Type} (d l : List (String × α)) (k : String) (v : α)
    (h : alistGet? d k = some v) : alistGet? (d ++ l) k = some v := by
  induction d with
  | nil => simp [alistGet?] at h
  | cons hd tl ih =>
    obtain ⟨k0, v0⟩ := hd
    by_cases h0 : k0 = k
    · subst h0; simp [alistGet?] at h ⊢; exact h
    · simp [alistGet?, h0] at h ⊢; exact ih h

theorem alistGet_append_missing {α : Type} (d : List (String × α)) (k : String) (v : α)
    (h : alistContains d k = false) : alistGet? (d ++ [(k, v)]) k = some v := by
  induction d with
  | nil => simp [alistGet?]
  | cons hd tl ih =>
    obtain ⟨k0, v0⟩ := hd
    by_cases h0 : k0 = k
    · subst h0; simp [alistContains, alistGet?] at h
    · simp [alistContains, alistGet?, h0] at h ⊢
      exact ih (by simp [alistContains, h])

theorem alistGet_setdefault_of_get {α : Type} (d : List (String × α)) (k k' : String)
    (v : α) (v' : α) (h : alistGet? d k = some v) :
    alistGet? (alistSetdefault d k' v') k = some v := by
  unfold alistSetdefault
  by_cases hc : alistContains d k' = true
  · simp [hc, h]
  · simp at hc
    simp [hc]
    by_cases hk : k' = k
    · subst hk
      simp [alistContains, h] at hc
    · exact alistGet_append_left d [(k', v')] k v h

theorem alistSetdefault_fold_get (prov : Dict) (d : Dict) (k : String) (v : Json)
    (h : alistGet? d k = some v) :
    alistGet? (prov.foldl (fun fs kv => alistSetdefault fs kv.1 kv.2) d) k = some v := by
  induction prov generalizing d with
  | nil => exact h
  | cons hd tl ih => exact ih _ (alistGet_setdefault_of_get d k hd.1 v hd.2 h)

/-- After a successful `writeSegs`, resolving the same parts returns the
written value (the round-trip core). -/
theorem resolveSegs_writeSegs (parts : List String) (fields fields2 : Dict) (v : Json)
    (path : String) (h : writeSegs fields parts v = Except.ok fields2) :
    resolveSegs (Json.obj fields2) parts path = Except.ok v := by
  induction parts generalizing fields fields2 with
  | nil => simp [writeSegs] at h
  | cons k rest ih =>
    cases rest with
    | nil =>
      simp [writeSegs] at h
      subst h
      simp [resolveSegs, alistGet_set_self]
    | cons r1 rs =>
      rw [writeSegs] at h
      cases hcf : childFor fields k with
      | obj cf =>
        rw [hcf] at h
        cases hw : writeSegs cf (r1 :: rs) v with
        | ok cf2 =>
          simp [hw] at h
          subst h
          simp [resolveSegs, alistGet_set_self]
          exact ih cf cf2 hw
        | error e => simp [hw] at h
      | null => rw [hcf] at h; simp at h
      | bool b => rw [hcf] at h; simp at h
      | num n => rw [hcf] at h; simp at h
      | float q => rw [hcf] at h; simp at h
      | str s => rw [hcf] at h; simp at h
      | arr xs => rw [hcf] at h; simp at h

/-- The claim's precondition on intermediate segments: each is absent,
`None`, or a mapping along the path. -/
def pathWritable : Dict → List String → Bool
  | _, [] => false
  | _, [_] => true
  | fields, k :: r1 :: rs =>
    match alistGet? fields k with
    | none => true
    | some Json.null => true
    | some (Json.obj cf) => pathWritable cf (r1 :: rs)
    | some _ => false

theorem writeSegs_fresh (v : Json) :
    ∀ (parts : List String), parts ≠ [] → ∃ d2, writeSegs [] parts v = Except.ok d2 := by
  intro parts
  induction parts with
  | nil => intro h; exact absurd rfl h
  | cons k rest ih =>
    intro _
    cases rest with
    | nil => exact ⟨_, rfl⟩
    | cons r1 rs =>
      obtain ⟨d2, hd2⟩ := ih (by simp)
      refine ⟨alistSet [] k (Json.obj d2), ?_⟩
      rw [writeSegs]
      simp [childFor, alistGet?, hd2]

theorem writeSegs_total :
    ∀ (parts : List String) (fields : Dict) (v : Json), parts ≠ [] →
      pathWritable fields parts = true → ∃ d2, writeSegs fields parts v = Except.ok d2 := by
  intro parts
  induction parts with
  | nil => intro fields v h _; exact absurd rfl h
  | cons k rest ih =>
    intro fields v _ hw
    cases rest with
    | nil => exact ⟨_, rfl⟩
    | cons r1 rs =>
      rw [pathWritable] at hw
      cases hget : alistGet? fields k with
      | none =>
        obtain ⟨cf2, hcf2⟩ := writeSegs_fresh v (r1 :: rs) (by simp)
        refine ⟨alistSet fields k (Json.obj cf2), ?_⟩
        rw [writeSegs]
        simp [childFor, hget, hcf2]
      | some c =>
        cases c with
        | null =>
          obtain ⟨cf2, hcf2⟩ := writeSegs_fresh v (r1 :: rs) (by simp)
          refine ⟨alistSet fields k (Json.obj cf2), ?_⟩
          rw [writeSegs]
          simp [childFor, hget, hcf2]
        | obj cf =>
          rw [hget] at hw
          obtain ⟨cf2, hcf2⟩ := ih cf v (by simp) hw
          refine ⟨alistSet fields k (Json.obj cf2), ?_⟩
          rw [writeSegs]
          simp [childFor, hget, hcf2]
        | bool b => rw [hget] at hw; simp at hw
        | num n => rw [hget] at hw; simp at hw
        | float q => rw [hget] at hw; simp at hw
        | str s => rw [hget] at hw; simp at hw
        | arr xs => rw [hget] at hw; simp at hw

theorem resolveSegs_append_one (parts : List String) (cur : Json) (fs : Dict)
    (k path : String) (v : Json) (h1 : resolveSegs cur parts path = Except.ok (Json.obj fs))
    (h2 : alistGet? fs k = some v) :
    resolveSegs cur (parts ++ [k]) path = Except.ok v := by
  induction parts generalizing cur with
  | nil =>
    simp [resolveSegs] at h1
    subst h1
    simp [resolveSegs, h2]
  | cons p ps ih =>
    cases cur with
    | obj fields =>
      rw [resolveSegs] at h1
      cases hg : alistGet? fields p with
      | some w =>
        rw [hg] at h1
        simp at h1
        simp [resolveSegs, hg]
        exact ih w h1
      | none => rw [hg] at h1; simp at h1
    | null => simp [resolveSegs] at h1
    | bool b => simp [resolveSegs] at h1
    | num n => simp [resolveSegs] at h1
    | float q => simp [resolveSegs] at h1
    | str s => simp [resolveSegs] at h1
    | arr xs => simp [resolveSegs] at h1

/-! ## C5 — store round-trip -/

/-- C5: for every document `doc`, value `v` and dotted path `p` with at
least one (non-empty) segment whose intermediate segments in `doc` are each
absent, `None`, or a mapping, `write_path` succeeds and resolving `p` in
the updated document returns exactly the written value. -/
theorem spec_c5_store_roundtrip (doc : Dict) (p : String) (v : Json)
    (parts : List String) (hsplit : split_path p = Except.ok parts)
    (hne : parts ≠ []) (hw : pathWritable doc parts = true) :
    ∃ doc2, write_path doc p v = Except.ok doc2 ∧
      resolve_path doc2 p true Json.null = Except.ok v := by
  obtain ⟨d2, hd2⟩ := writeSegs_total parts doc v hne hw
  refine ⟨d2, ?_, ?_⟩
  · simp [write_path, hsplit, hd2]
  · simp [resolve_path, hsplit, resolveSegs_writeSegs parts doc d2 v p hd2]

/-- Witness for C5 at `doc = {"a": None}`, `p = "a.b"`, `v = 7` (the `None`
intermediate is replaced by a fresh container). -/
theorem spec_c5_store_roundtrip_witness :
    ∃ doc2, write_path [("a", Json.null)] "a.b" (Json.num 7) = Except.ok doc2 ∧
      resolve_path doc2 "a.b" true Json.null = Except.ok (Json.num 7) :=
  spec_c5_store_roundtrip [("a", Json.null)] "a.b" (Json.num 7) ["a", "b"] rfl
    (by simp) rfl

/-! ## C1 — `write_with_metadata` and `created_at` across two calls -/

/-- C1 counterexample: two successive `write_with_metadata` calls to the
same path `"a"` (mapping values).  `write_path` replaces the stored mapping
wholesale before `setdefault` runs, so after the second call `created_at`
is the second timestamp, not the first — the claim fails at this input. -/
theorem spec_c1_counterexample :
    (do
      let d1 ← write_with_metadata [] "a" (Json.obj []) "2024-01-01T00:00:00+00:00" []
      let d2 ← write_with_metadata d1 "a" (Json.obj []) "2024-01-02T00:00:00+00:00" []
      resolve_path d2 "a.created_at" true Json.null)
      = Except.ok (Json.str "2024-01-02T00:00:00+00:00") ∧
    ("2024-01-02T00:00:00+00:00" : String) ≠ "2024-01-01T00:00:00+00:00" :=
  ⟨rfl, by decide⟩

/-- C1 amended: the second `write_with_metadata` call *overwrites* the
stored value, so afterwards the `created_at` stored for `p` is the second
call's timestamp whenever the second value is a mapping that does not
itself carry a `created_at` key (`setdefault` only protects keys already
present in the newly stored value, within a single call — not values from
previous calls). -/
theorem spec_c1_amended (doc d1 d2 : Dict) (p : String) (parts : List String)
    (v1 : Json) (fs2 : Dict) (t1 t2 : String) (prov1 prov2 : Dict)
    (hsplit : split_path p = Except.ok parts)
    (_h1 : write_with_metadata doc p v1 t1 prov1 = Except.ok d1)
    (h2 : write_with_metadata d1 p (Json.obj fs2) t2 prov2 = Except.ok d2)
    (hno : alistContains fs2 "created_at" = false) :
    resolveSegs (Json.obj d2) (parts ++ ["created_at"]) p =
      Except.ok (Json.str t2) := by
  rw [write_with_metadata, hsplit] at h2
  simp only [] at h2
  cases hmid : writeSegs d1 parts (Json.obj fs2) with
  | error e => rw [hmid] at h2; simp at h2
  | ok dmid =>
    rw [hmid] at h2
    simp only [] at h2
    rw [resolveSegs_writeSegs parts d1 dmid (Json.obj fs2) p hmid] at h2
    simp only [] at h2
    have hlook : alistGet?
        (prov2.foldl (fun fs kv => alistSetdefault fs kv.1 kv.2)
          (alistSetdefault fs2 "created_at" (Json.str t2))) "created_at"
        = some (Json.str t2) := by
      apply alistSetdefault_fold_get
      unfold alistSetdefault
      rw [hno]
      simp
      exact alistGet_append_missing fs2 "created_at" (Json.str t2) hno
    exact resolveSegs_append_one parts (Json.obj d2) _ "created_at" p (Json.str t2)
      (resolveSegs_writeSegs parts dmid d2 _ p h2) hlook

/-- Witness for the amended C1 at `doc = {}`, `p = "a"`, both values `{}`. -/
theorem spec_c1_amended_witness :
    resolveSegs
      (Json.obj [("a", Json.obj [("created_at", Json.str "T2")])])
      (["a"] ++ ["created_at"]) "a" = Except.ok (Json.str "T2") :=
  spec_c1_amended [] [("a", Json.obj [("created_at", Json.str "T1")])]
    [("a", Json.obj [("created_at", Json.str "T2")])] "a" ["a"]
    (Json.obj []) [] "T1" "T2" [] [] rfl rfl rfl rfl

/-! ## C3 — the `none` literal is dead in both resolvers -/

/-- C3: contrary to the spec's `none → null` literal fallback, the callers
of `_coerce_literal` / `_attempt_literal` use `is not None` as their
failure test, so the `None` those helpers return for `"none"` is swallowed:
rendering `"{{none}}"` raises `TemplateError("Unknown placeholder")`
(for any bank without a literal `"none"` key), and the conditional operand
resolver returns the raw string `"none"` (whenever `"none"` resolves as
neither a bank path nor a document path).  The last two conjuncts show the
helpers *do* map `"none"` to `None`, making those branches dead code. -/
theorem spec_c3_none_literal_dead (vars ctx : Dict)
    (hv : alistContains vars "none" = false)
    (hc : ∀ v, resolve_path ctx "none" true Json.null ≠ Except.ok v) :
    render_string "\x7b\x7bnone\x7d\x7d" vars ctx =
      Except.error (PyErr.templateUnknownPlaceholder "none") ∧
    resolve_operand (Json.str "none") vars ctx = Json.str "none" ∧
    coerce_literal "none" = Json.null ∧ attempt_literal "none" = Json.null := by
  have hget : alistGet? vars "none" = none := by
    cases hg : alistGet? vars "none" with
    | none => rfl
    | some v => simp [alistContains, hg] at hv
  refine ⟨?_, ?_, rfl, rfl⟩
  · have hexp : evaluate_expression "none" vars ctx =
        Except.error (PyErr.templateUnknownPlaceholder "none") := by
      rw [evaluate_expression]
      simp [pyStartsWith, pyEndsWith, isPrefixChars, alistContains, hget,
        coerce_literal, pyLower, containsChar, pyIntParse, trimChars,
        pyIsSpace, parseNatChars, parseNatAux, Char.isDigit]
    rw [render_string]
    simp only [scan_chunks, takePH, String.data]
    simp [render_go, hexp, pyStrip, trimChars, pyIsSpace, isExprChunk]
  · rw [resolve_operand]
    have hwalk : walkVars (Json.obj vars) (splitVarParts "none") = none := by
      simp [splitVarParts, pySplitChar, splitOnCharAux, pyStrip, trimChars,
        pyIsSpace, walkVars, hget]
    rw [hwalk]
    cases hr : resolve_path ctx "none" true Json.null with
    | ok v => exact absurd hr (hc v)
    | error e => simp [attempt_literal, coerce_literal, pyLower, containsChar,
        pyIntParse, trimChars, pyIsSpace, parseNatChars, parseNatAux, Char.isDigit]

/-- Witness for C3 at the empty bank and empty document. -/
theorem spec_c3_none_literal_dead_witness :
    render_string "\x7b\x7bnone\x7d\x7d" [] [] =
      Except.error (PyErr.templateUnknownPlaceholder "none") ∧
    resolve_operand (Json.str "none") [] [] = Json.str "none" ∧
    coerce_literal "none" = Json.null ∧ attempt_literal "none" = Json.null :=
  spec_c3_none_literal_dead [] [] rfl (fun v h => by simp [resolve_path,
    split_path, pyStrip, trimChars, pyIsSpace, pySplitChar, splitOnCharAux,
    resolveSegs, alistGet?] at h)

/-! ## C4 — comparator type mismatches -/

/-- C4 counterexample: a `!=` comparator branch whose resolved operands are
the number `1` and the string `"hello"` *matches* (Python `!=` between
incompatible types returns `True` rather than raising `TypeError`), so the
claim's "resolves to no match … for every such operator" fails at `!=`. -/
theorem spec_c4_counterexample :
    branch_matches (fun _ _ _ _ => Except.error PyErr.templatePythonNotBool)
      ⟨some "x", some ⟨some "!=", some "hello", none⟩, "target"⟩
      [("x", Json.num 1)] [] = Except.ok (true, [("x", Json.num 1)]) := rfl

/-- C4 amended: for the ordering comparators `>`, `>=`, `<`, `<=` a
`TypeError` between a number and a string is caught and the branch does not
match, and `==` between them is `False` (no match); but `!=` between them
is `True`, so the branch *matches*.  Totality over heterogeneous values
holds; "no match" does not extend to `!=`. -/
theorem spec_c4_amended (pyEval : PyEval) (b : ConditionalBranch)
    (c : BranchCondition) (vars vars1 vars2 ctx : Dict) (op t : String)
    (x y : Json) (n : Int) (s : String)
    (hc : b.condition = some c) (hpy : c.python = none)
    (hop : c.op = some op) (hct : c.compare_to = some t)
    (hrl : render_string (b.value.getD "") vars ctx = Except.ok (x, vars1))
    (hlv : resolve_operand x vars1 ctx = Json.num n)
    (hrr : render_string t vars1 ctx = Except.ok (y, vars2))
    (hrv : resolve_operand y vars2 ctx = Json.str s) :
    ((op = ">" ∨ op = ">=" ∨ op = "<" ∨ op = "<=" ∨ op = "==") →
      branch_matches pyEval b vars ctx = Except.ok (false, vars2)) ∧
    (op = "!=" →
      branch_matches pyEval b vars ctx = Except.ok (true, vars2)) := by
  constructor
  · rintro (rfl | rfl | rfl | rfl | rfl) <;>
      simp [branch_matches, hc, hpy, hop, hct, hrl, hrr, hlv, hrv, optStrTruthy,
        comparators, apply_comparator, pyEq, pyLt, pyLe]
  · rintro rfl
    simp [branch_matches, hc, hpy, hop, hct, hrl, hrr, hlv, hrv, optStrTruthy,
      comparators, apply_comparator, pyEq]

/-- Witness for the amended C4: `1 > "hello"` resolves to no match. -/
theorem spec_c4_amended_witness :
    branch_matches (fun _ _ _ _ => Except.error PyErr.templatePythonNotBool)
      ⟨some "x", some ⟨some ">", some "hello", none⟩, "target"⟩
      [("x", Json.num 1)] [] = Except.ok (false, [("x", Json.num 1)]) :=
  (spec_c4_amended (fun _ _ _ _ => Except.error PyErr.templatePythonNotBool)
    ⟨some "x", some ⟨some ">", some "hello", none⟩, "target"⟩
    ⟨some ">", some "hello", none⟩ [("x", Json.num 1)] [("x", Json.num 1)]
    [("x", Json.num 1)] [] ">" "hello" (Json.str "x") (Json.str "hello") 1
    "hello" rfl rfl rfl rfl rfl rfl rfl rfl).1 (Or.inl rfl)

/-! ## C10 — an absent branch condition matches unconditionally -/

/-- C10: a branch whose `condition` is `None` matches unconditionally, so a
conditional node whose *first* branch has no condition always routes to
that branch's `goto`, making every later branch and the else-target
unreachable (the result does not depend on `rest` or `egoto`). -/
theorem spec_c10_unconditional_branch (pyEval : PyEval) (b : ConditionalBranch)
    (rest : List ConditionalBranch) (id egoto : String) (vars ctx : Dict)
    (hb : b.condition = none) :
    branch_matches pyEval b vars ctx = Except.ok (true, vars) ∧
    evaluate_conditional pyEval ⟨id, b :: rest, egoto⟩ vars ctx =
      Except.ok (b.goto, vars) := by
  constructor
  · simp [branch_matches, hb]
  · simp [evaluate_conditional, evaluate_conditional_go, branch_matches, hb]

/-- Witness for C10 with a second branch and a distinct else-target. -/
theorem spec_c10_unconditional_branch_witness :
    branch_matches (fun _ _ _ _ => Except.error PyErr.templatePythonNotBool)
      ⟨none, none, "T"⟩ [] [] = Except.ok (true, []) ∧
    evaluate_conditional (fun _ _ _ _ => Except.error PyErr.templatePythonNotBool)
      ⟨"c", [⟨none, none, "T"⟩, ⟨some "x", none, "U"⟩], "E"⟩ [] [] =
      Except.ok ("T", []) :=
  spec_c10_unconditional_branch
    (fun _ _ _ _ => Except.error PyErr.templatePythonNotBool)
    ⟨none, none, "T"⟩ [⟨some "x", none, "U"⟩] "c" "E" [] [] rfl

/-! ## C6 — increment semantics -/

theorem strMkData (s : String) : String.mk s.data = s := rfl

theorem isPrefixChars_self_append (l m : List Char) :
    isPrefixChars l (l ++ m) = true := by
  induction l with
  | nil => simp [isPrefixChars]
  | cons c cs ih => simp [isPrefixChars, ih]

theorem pyEndsWith_append (s t : String) : pyEndsWith (s ++ t) t = true := by
  unfold pyEndsWith
  rw [String.data_append, List.reverse_append]
  exact isPrefixChars_self_append t.data.reverse s.data.reverse

theorem pyStartsWith_append (s t : String) : pyStartsWith (t ++ s) t = true := by
  unfold pyStartsWith
  rw [String.data_append]
  exact isPrefixChars_self_append t.data s.data

theorem strDropRight_append_two (name : String) :
    strDropRight (name ++ "++") 2 = name := by
  unfold strDropRight
  rw [String.data_append]
  have h2 : ("++" : String).data = ['+', '+'] := rfl
  rw [h2, List.length_append]
  simp

theorem strDrop_two_append (name : String) : strDrop ("++" ++ name) 2 = name := by
  unfold strDrop
  rw [String.data_append]
  exact strMkData name

theorem append_ne_empty_of_right (s t : String) (h : t.data ≠ []) : s ++ t ≠ "" := by
  intro he
  have : (s ++ t).data = [] := by rw [he]
  rw [String.data_append] at this
  rcases List.append_eq_nil.mp this with ⟨_, h2⟩
  exact h h2

theorem append_ne_empty_of_left (s t : String) (h : s.data ≠ []) : s ++ t ≠ "" := by
  intro he
  have : (s ++ t).data = [] := by rw [he]
  rw [String.data_append] at this
  rcases List.append_eq_nil.mp this with ⟨h1, _⟩
  exact h h1

/-- Evaluating a template that scans to exactly one placeholder returns
that placeholder's value with its native type. -/
theorem render_single (template : String) (e : List Char) (vars vars1 ctx : Dict)
    (v : Json)
    (hscan : scan_chunks (template.data.length + 1) template.data = [Chunk.expr e])
    (heval : evaluate_expression (pyStrip (String.mk e)) vars ctx =
      Except.ok (v, vars1)) :
    render_string template vars ctx = Except.ok (v, vars1) := by
  have hgo : render_go [Chunk.expr e] vars ctx =
      Except.ok ([stringify v], some v, 1, vars1) := by
    simp only [render_go, heval]
    rfl
  rw [render_string]
  simp only [hscan]
  simp [isExprChunk, hgo, beforeFirstExpr, afterFirstExpr, chunkChars,
    pyStrip, trimChars]

/-- The dotted lookup that `_increment_var` performs before mutating: each
intermediate segment must be a mapping containing the segment, and the
final key must be present in the final mapping. -/
def bank_lookup : Dict → List String → Option Json
  | _, [] => none
  | fields, [k] => alistGet? fields k
  | fields, k :: r1 :: rs =>
    match alistGet? fields k with
    | some (Json.obj cf) => bank_lookup cf (r1 :: rs)
    | _ => none

def isNumericVal : Json → Bool
  | Json.num _ => true
  | Json.float _ => true
  | _ => false

def jsonSucc : Json → Json
  | Json.num n => Json.num (n + 1)
  | Json.float q => Json.float (q + 1)
  | v => v

theorem increment_go_spec (parts : List String) (fields : Dict) (name : String)
    (v : Json) (post : Bool) (hnum : isNumericVal v = true)
    (h : bank_lookup fields parts = some v) :
    ∃ fields2, increment_go fields parts name post =
        Except.ok ((if post then v else jsonSucc v), fields2) ∧
      bank_lookup fields2 parts = some (jsonSucc v) := by
  induction parts generalizing fields with
  | nil => simp [bank_lookup] at h
  | cons k rest ih =>
    cases rest with
    | nil =>
      simp [bank_lookup] at h
      cases v with
      | num n =>
        refine ⟨alistSet fields k (Json.num (n + 1)), ?_,
          by simp only [bank_lookup, alistGet_set_self]; rfl⟩
        show increment_go fields [k] name post = _
        simp only [increment_go, h]
        cases post <;> rfl
      | float q =>
        refine ⟨alistSet fields k (Json.float (q + 1)), ?_,
          by simp only [bank_lookup, alistGet_set_self]; rfl⟩
        show increment_go fields [k] name post = _
        simp only [increment_go, h]
        cases post <;> rfl
      | null => simp [isNumericVal] at hnum
      | bool b => simp [isNumericVal] at hnum
      | str s => simp [isNumericVal] at hnum
      | arr xs => simp [isNumericVal] at hnum
      | obj fs => simp [isNumericVal] at hnum
    | cons r1 rs =>
      rw [bank_lookup] at h
      cases hget : alistGet? fields k with
      | none => rw [hget] at h; simp at h
      | some c =>
        rw [hget] at h
        cases c with
        | obj cf =>
          simp at h
          obtain ⟨cf2, hcf2, hlook2⟩ := ih cf h
          refine ⟨alistSet fields k (Json.obj cf2), ?_, ?_⟩
          · simp [increment_go, hget, hcf2]
          · simp [bank_lookup, alistGet_set_self, hlook2]
        | null => simp at h
        | bool b => simp at h
        | num n => simp at h
        | float q => simp at h
        | str s => simp at h
        | arr xs => simp at h

/-- C6: if the dotted path `name` resolves in the bank to a numeric value
`v`, rendering a template that is exactly the placeholder `{{name++}}`
returns `v` and leaves the variable at `v + 1`, and rendering `{{++name}}`
returns `v + 1` and leaves the variable at `v + 1`.  The `hscan*`/`hstrip*`
hypotheses say the templates scan to those single placeholders and that
`name` carries no surrounding whitespace or `++` affixes of its own. -/
theorem spec_c6_increment_semantics (vars ctx : Dict) (name tpost tpre : String)
    (v : Json) (hnum : isNumericVal v = true)
    (hlook : bank_lookup vars (splitVarParts name) = some v)
    (hscanPost : scan_chunks (tpost.data.length + 1) tpost.data =
      [Chunk.expr (name ++ "++").data])
    (hscanPre : scan_chunks (tpre.data.length + 1) tpre.data =
      [Chunk.expr ("++" ++ name).data])
    (hstripPost : pyStrip (name ++ "++") = name ++ "++")
    (hstripPre : pyStrip ("++" ++ name) = "++" ++ name)
    (hnostart : pyStartsWith (name ++ "++") "++" = false)
    (hstripName : pyStrip name = name) :
    (∃ vars2, render_string tpost vars ctx = Except.ok (v, vars2) ∧
      bank_lookup vars2 (splitVarParts name) = some (jsonSucc v)) ∧
    (∃ vars3, render_string tpre vars ctx = Except.ok (jsonSucc v, vars3) ∧
      bank_lookup vars3 (splitVarParts name) = some (jsonSucc v)) := by
  constructor
  · obtain ⟨vars2, hinc, hlook2⟩ :=
      increment_go_spec (splitVarParts name) vars name v true hnum hlook
    refine ⟨vars2, ?_, hlook2⟩
    apply render_single tpost (name ++ "++").data vars vars2 ctx v hscanPost
    rw [strMkData, hstripPost, evaluate_expression]
    rw [hnostart]
    simp only [append_ne_empty_of_right name "++" (by decide), if_false,
      Bool.false_eq_true, pyEndsWith_append, if_true]
    rw [strDropRight_append_two, hstripName]
    unfold increment_var
    rw [hinc]
    simp
  · obtain ⟨vars3, hinc, hlook3⟩ :=
      increment_go_spec (splitVarParts name) vars name v false hnum hlook
    refine ⟨vars3, ?_, hlook3⟩
    apply render_single tpre ("++" ++ name).data vars vars3 ctx (jsonSucc v) hscanPre
    rw [strMkData, hstripPre, evaluate_expression]
    rw [pyStartsWith_append]
    simp only [append_ne_empty_of_left "++" name (by decide), if_false,
      Bool.false_eq_true, if_true]
    rw [strDrop_two_append, hstripName]
    unfold increment_var
    rw [hinc]
    simp

/-- Witness for C6: `count = 1`, `{{count++}}` yields `1` leaving `2`,
`{{++count}}` yields `2` leaving `2`. -/
theorem spec_c6_increment_semantics_witness :
    (∃ vars2, render_string "\x7b\x7bcount++\x7d\x7d" [("count", Json.num 1)] [] =
        Except.ok (Json.num 1, vars2) ∧
      bank_lookup vars2 (splitVarParts "count") = some (Json.num 2)) ∧
    (∃ vars3, render_string "\x7b\x7b++count\x7d\x7d" [("count", Json.num 1)] [] =
        Except.ok (Json.num 2, vars3) ∧
      bank_lookup vars3 (splitVarParts "count") = some (Json.num 2)) :=
  spec_c6_increment_semantics [("count", Json.num 1)] [] "count"
    "\x7b\x7bcount++\x7d\x7d" "\x7b\x7b++count\x7d\x7d" (Json.num 1) rfl rfl
    rfl rfl rfl rfl rfl rfl

/-! ## C7 — skip idempotence -/

/-- C7: when `skip_if_output_present` is set, the node has a (non-empty)
primary output key, its destination template renders to a string path that
currently resolves to a truthy value, and the output re-sync succeeds, then
`execute_node` returns status `"skipped"` with the document returned
*unchanged* — in particular every `created_at` the first run wrote is
untouched.  (The skip-check renders against a `deepcopy` of the bank, so
`vrest` is discarded.) -/
theorem spec_c7_skip_idempotent (caps : Caps) (node : ExecuteNode)
    (vars ctx : Dict) (ts : String) (pk rp : String) (vrest : Dict) (ev : Json)
    (vars2 : Dict)
    (hskip : node.skip_if_output_present = true)
    (hpk : primary_output node = some pk) (hpkne : pk ≠ "")
    (hrender : render_string (lookupTemplate node.outputs pk) vars ctx =
      Except.ok (Json.str rp, vrest))
    (hres : resolve_path ctx rp true Json.null = Except.ok ev)
    (htr : truthy ev = true)
    (hsync : sync_outputs_on_skip node vars ctx = Except.ok vars2) :
    execute_node caps node vars ctx ts =
      ExecOutcome.done vars2 ctx
        [("status", Json.str "skipped"),
         ("reason", Json.str "output already present")] := by
  have hbne : (pk != "") = true := by simp [hpkne]
  have hsc : skip_check node vars ctx = Except.ok (some vars2) := by
    rw [skip_check, hpk]
    simp only [hskip, hbne, Bool.and_self, if_true]
    rw [hrender]
    simp only [resolve_path_any]
    rw [hres]
    simp only [htr, if_true]
    rw [hsync]
  rw [execute_node, hsc]

/-- Witness for C7: a concrete node run twice; the second run is skipped
and the `created_at` stamped by the first run survives unchanged. -/
theorem spec_c7_skip_idempotent_witness :
    execute_node
      (fun s => if s = "m.f" then
        Except.ok (fun c _ => (c, Except.ok (Json.obj [("res", Json.num 5)])))
        else Except.error (PyErr.nodeImportFailed s))
      ⟨"n", "m.f", [], [("res", "dest")], true⟩ [] [] "T1" =
      ExecOutcome.done []
        [("dest", Json.num 5),
         ("dest_metadata", Json.obj [("created_at", Json.str "T1")])]
        [("status", Json.str "completed"), ("outputs", Json.arr [Json.str "res"])] ∧
    execute_node
      (fun s => if s = "m.f" then
        Except.ok (fun c _ => (c, Except.ok (Json.obj [("res", Json.num 5)])))
        else Except.error (PyErr.nodeImportFailed s))
      ⟨"n", "m.f", [], [("res", "dest")], true⟩ []
      [("dest", Json.num 5),
       ("dest_metadata", Json.obj [("created_at", Json.str "T1")])] "T2" =
      ExecOutcome.done []
        [("dest", Json.num 5),
         ("dest_metadata", Json.obj [("created_at", Json.str "T1")])]
        [("status", Json.str "skipped"),
         ("reason", Json.str "output already present")] :=
  ⟨rfl,
    spec_c7_skip_idempotent
      (fun s => if s = "m.f" then
        Except.ok (fun c _ => (c, Except.ok (Json.obj [("res", Json.num 5)])))
        else Except.error (PyErr.nodeImportFailed s))
      ⟨"n", "m.f", [], [("res", "dest")], true⟩ []
      [("dest", Json.num 5),
       ("dest_metadata", Json.obj [("created_at", Json.str "T1")])] "T2"
      "res" "dest" [] (Json.num 5) [] rfl rfl (by decide) rfl rfl rfl rfl⟩

/-! ## C8 — engine stepping -/

/-- C8: one iteration of the `execute_workflow` loop: (i) a counter at or
past the end terminates the loop immediately; (ii) a successful execute
node advances the counter by exactly one; (iii) a conditional node whose
evaluation returns the sentinel `"END"` terminates the loop; (iv) a
conditional routing to a target absent from the name→index map raises the
fatal `WorkflowExecutionError`. -/
theorem spec_c8_engine_stepping (caps : Caps) (pyEval : PyEval)
    (clock : Nat → String) (flow : List WNode) (vars ctx : Dict)
    (pc fuel : Nat) :
    (pc ≥ flow.length →
      execute_loop caps pyEval clock flow fuel vars ctx pc =
        EngineOutcome.done vars ctx) ∧
    (∀ n v c st, pc < flow.length → flow.getD pc default = WNode.exec n →
      execute_node caps n vars ctx (clock (fuel + 1)) = ExecOutcome.done v c st →
      execute_loop caps pyEval clock flow (fuel + 1) vars ctx pc =
        execute_loop caps pyEval clock flow fuel v c (pc + 1)) ∧
    (∀ n vars1, pc < flow.length → flow.getD pc default = WNode.cond n →
      evaluate_conditional pyEval n vars ctx = Except.ok ("END", vars1) →
      execute_loop caps pyEval clock flow (fuel + 1) vars ctx pc =
        EngineOutcome.done vars1 ctx) ∧
    (∀ n t vars1, pc < flow.length → flow.getD pc default = WNode.cond n →
      evaluate_conditional pyEval n vars ctx = Except.ok (t, vars1) →
      t ≠ "END" → alistGet? (node_index flow) t = none →
      execute_loop caps pyEval clock flow (fuel + 1) vars ctx pc =
        EngineOutcome.err (PyErr.workflowUnknownTarget n.id t) vars1 ctx) := by
  refine ⟨?_, ?_, ?_, ?_⟩
  · intro hge
    rw [execute_loop.eq_def]
    simp [hge]
  · intro n v c st hlt hnode hexec
    rw [execute_loop.eq_def]
    simp only [ge_iff_le, if_neg (not_le.mpr hlt)]
    rw [hnode]
    simp only [Nat.succ_eq_add_one]
    rw [hexec]
  · intro n vars1 hlt hnode heval
    rw [execute_loop.eq_def]
    simp only [ge_iff_le, if_neg (not_le.mpr hlt)]
    rw [hnode]
    simp only []
    rw [heval]
    simp
  · intro n t vars1 hlt hnode heval hne hidx
    rw [execute_loop.eq_def]
    simp only [ge_iff_le, if_neg (not_le.mpr hlt)]
    rw [hnode]
    simp only []
    rw [heval]
    simp [hne, hidx]

/-- Witness for C8: each of the four stepping facts at a concrete flow. -/
theorem spec_c8_engine_stepping_witness :
    (execute_loop
      (fun s => if s = "m.f" then
        Except.ok (fun c _ => (c, Except.ok (Json.obj [("res", Json.num 5)])))
        else Except.error (PyErr.nodeImportFailed s))
      (fun _ _ _ _ => Except.error PyErr.templatePythonNotBool) (fun _ => "T")
      [WNode.exec ⟨"e", "m.f", [], [("res", "dest")], false⟩] 3 [] [] 5 =
        EngineOutcome.done [] []) ∧
    (execute_loop
      (fun s => if s = "m.f" then
        Except.ok (fun c _ => (c, Except.ok (Json.obj [("res", Json.num 5)])))
        else Except.error (PyErr.nodeImportFailed s))
      (fun _ _ _ _ => Except.error PyErr.templatePythonNotBool) (fun _ => "T")
      [WNode.exec ⟨"e", "m.f", [], [("res", "dest")], false⟩] 1 [] [] 0 =
      execute_loop
      (fun s => if s = "m.f" then
        Except.ok (fun c _ => (c, Except.ok (Json.obj [("res", Json.num 5)])))
        else Except.error (PyErr.nodeImportFailed s))
      (fun _ _ _ _ => Except.error PyErr.templatePythonNotBool) (fun _ => "T")
      [WNode.exec ⟨"e", "m.f", [], [("res", "dest")], false⟩] 0 []
      [("dest", Json.num 5),
       ("dest_metadata", Json.obj [("created_at", Json.str "T")])] 1) ∧
    (execute_loop
      (fun s => Except.error (PyErr.nodeImportFailed s))
      (fun _ _ _ _ => Except.error PyErr.templatePythonNotBool) (fun _ => "T")
      [WNode.cond ⟨"k", [⟨none, none, "END"⟩], "E"⟩] 1 [] [] 0 =
        EngineOutcome.done [] []) ∧
    (execute_loop
      (fun s => Except.error (PyErr.nodeImportFailed s))
      (fun _ _ _ _ => Except.error PyErr.templatePythonNotBool) (fun _ => "T")
      [WNode.cond ⟨"m1", [⟨none, none, "missing"⟩], "E"⟩] 1 [] [] 0 =
        EngineOutcome.err (PyErr.workflowUnknownTarget "m1" "missing") [] []) :=
  ⟨(spec_c8_engine_stepping
      (fun s => if s = "m.f" then
        Except.ok (fun c _ => (c, Except.ok (Json.obj [("res", Json.num 5)])))
        else Except.error (PyErr.nodeImportFailed s))
      (fun _ _ _ _ => Except.error PyErr.templatePythonNotBool) (fun _ => "T")
      [WNode.exec ⟨"e", "m.f", [], [("res", "dest")], false⟩] [] [] 5 3).1
      (by decide),
   (spec_c8_engine_stepping
      (fun s => if s = "m.f" then
        Except.ok (fun c _ => (c, Except.ok (Json.obj [("res", Json.num 5)])))
        else Except.error (PyErr.nodeImportFailed s))
      (fun _ _ _ _ => Except.error PyErr.templatePythonNotBool) (fun _ => "T")
      [WNode.exec ⟨"e", "m.f", [], [("res", "dest")], false⟩] [] [] 0 0).2.1
      ⟨"e", "m.f", [], [("res", "dest")], false⟩ []
      [("dest", Json.num 5),
       ("dest_metadata", Json.obj [("created_at", Json.str "T")])]
      [("status", Json.str "completed"), ("outputs", Json.arr [Json.str "res"])]
      (by decide) rfl rfl,
   (spec_c8_engine_stepping
      (fun s => Except.error (PyErr.nodeImportFailed s))
      (fun _ _ _ _ => Except.error PyErr.templatePythonNotBool) (fun _ => "T")
      [WNode.cond ⟨"k", [⟨none, none, "END"⟩], "E"⟩] [] [] 0 0).2.2.1
      ⟨"k", [⟨none, none, "END"⟩], "E"⟩ [] (by decide) rfl rfl,
   (spec_c8_engine_stepping
      (fun s => Except.error (PyErr.nodeImportFailed s))
      (fun _ _ _ _ => Except.error PyErr.templatePythonNotBool) (fun _ => "T")
      [WNode.cond ⟨"m1", [⟨none, none, "missing"⟩], "E"⟩] [] [] 0 0).2.2.2
      ⟨"m1", [⟨none, none, "missing"⟩], "E"⟩ "missing" [] (by decide) rfl rfl
      (by decide) rfl⟩

/-! ## C9 — the `vars` key of the document across `execute_node` -/

theorem alistContains_pop_self {α : Type} (d : List (String × α)) (k : String) :
    alistContains (alistPop d k) k = false := by
  induction d with
  | nil => rfl
  | cons hd tl ih =>
    obtain ⟨k0, v0⟩ := hd
    by_cases h : k0 = k
    · subst h; simpa [alistPop] using ih
    · simp only [alistPop, List.filter] at ih ⊢
      simp [h, alistContains, alistGet?, ih]
      simpa [alistPop, alistContains] using ih

theorem alistContains_set_other (d : Dict) (k key : String) (v : Json)
    (h : k ≠ key) : alistContains (alistSet d k v) key = alistContains d key := by
  simp [alistContains, alistGet_set_other d k key v h]

theorem metadata_suffix_ne_vars (p : String) : p ++ "_metadata" ≠ "vars" := by
  intro h
  have h2 := congrArg String.data h
  rw [String.data_append] at h2
  have h3 := congrArg List.length h2
  rw [List.length_append] at h3
  simp at h3

/-- `writeSegs` only touches the top-level key `parts.head`, so it cannot
introduce a top-level `"vars"` entry when that head differs from it. -/
theorem writeSegs_preserves_noVars (parts : List String) (d d2 : Dict) (v : Json)
    (h : writeSegs d parts v = Except.ok d2)
    (hhead : parts.head? ≠ some "vars")
    (hnv : alistContains d "vars" = false) :
    alistContains d2 "vars" = false := by
  cases parts with
  | nil => simp [writeSegs] at h
  | cons k rest =>
    have hk : k ≠ "vars" := by
      intro hkv; exact hhead (by rw [hkv]; rfl)
    cases rest with
    | nil =>
      simp [writeSegs] at h
      subst h
      rw [alistContains_set_other d k "vars" v hk]
      exact hnv
    | cons r1 rs =>
      rw [writeSegs] at h
      cases hcf : childFor d k with
      | obj cf =>
        rw [hcf] at h
        cases hw : writeSegs cf (r1 :: rs) v with
        | ok cf2 =>
          simp [hw] at h
          subst h
          rw [alistContains_set_other d k "vars" (Json.obj cf2) hk]
          exact hnv
        | error e => simp [hw] at h
      | null => rw [hcf] at h; simp at h
      | bool b => rw [hcf] at h; simp at h
      | num n => rw [hcf] at h; simp at h
      | float q => rw [hcf] at h; simp at h
      | str s => rw [hcf] at h; simp at h
      | arr xs => rw [hcf] at h; simp at h

theorem write_path_preserves_noVars (d d2 : Dict) (path : String) (v : Json)
    (h : write_path d path v = Except.ok d2)
    (hhead : ∀ parts, split_path path = Except.ok parts → parts.head? ≠ some "vars")
    (hnv : alistContains d "vars" = false) :
    alistContains d2 "vars" = false := by
  rw [write_path] at h
  cases hs : split_path path with
  | error e => rw [hs] at h; simp at h
  | ok parts =>
    rw [hs] at h
    simp only [] at h
    exact writeSegs_preserves_noVars parts d d2 v h (hhead parts hs) hnv

theorem dropLast_metadata_head (parts : List String) (last : String)
    (hl : parts.getLast? = some last)
    (hhead : parts.head? ≠ some "vars") :
    (parts.dropLast ++ [last ++ "_metadata"]).head? ≠ some "vars" := by
  cases parts with
  | nil => simp at hl
  | cons p ps =>
    cases ps with
    | nil =>
      simp at hl
      subst hl
      simp
      exact metadata_suffix_ne_vars p
    | cons p1 ps1 =>
      simp [List.dropLast]
      intro hpv
      exact hhead (by simp [hpv])

theorem wwm_preserves_noVars (d d2 : Dict) (path ts : String) (v : Json)
    (prov : Dict) (h : write_with_metadata d path v ts prov = Except.ok d2)
    (hhead : ∀ parts, split_path path = Except.ok parts → parts.head? ≠ some "vars")
    (hnv : alistContains d "vars" = false) :
    alistContains d2 "vars" = false := by
  rw [write_with_metadata] at h
  cases hs : split_path path with
  | error e => rw [hs] at h; simp at h
  | ok parts =>
    rw [hs] at h
    simp only [] at h
    cases hw : writeSegs d parts v with
    | error e => rw [hw] at h; simp at h
    | ok d1 =>
      rw [hw] at h
      simp only [] at h
      have hnv1 := writeSegs_preserves_noVars parts d d1 v hw (hhead parts hs) hnv
      cases hr : resolveSegs (Json.obj d1) parts path with
      | error e => rw [hr] at h; simp at h
      | ok target =>
        rw [hr] at h
        simp only [] at h
        cases target with
        | obj tf =>
          exact writeSegs_preserves_noVars parts d1 d2 _ h (hhead parts hs) hnv1
        | null =>
          cases hl : parts.getLast? with
          | none => rw [hl] at h; simp at h
          | some last =>
            rw [hl] at h
            exact writeSegs_preserves_noVars _ d1 d2 _ h
              (dropLast_metadata_head parts last hl (hhead parts hs)) hnv1
        | bool b =>
          cases hl : parts.getLast? with
          | none => rw [hl] at h; simp at h
          | some last =>
            rw [hl] at h
            exact writeSegs_preserves_noVars _ d1 d2 _ h
              (dropLast_metadata_head parts last hl (hhead parts hs)) hnv1
        | num n =>
          cases hl : parts.getLast? with
          | none => rw [hl] at h; simp at h
          | some last =>
            rw [hl] at h
            exact writeSegs_preserves_noVars _ d1 d2 _ h
              (dropLast_metadata_head parts last hl (hhead parts hs)) hnv1
        | float q =>
          cases hl : parts.getLast? with
          | none => rw [hl] at h; simp at h
          | some last =>
            rw [hl] at h
            exact writeSegs_preserves_noVars _ d1 d2 _ h
              (dropLast_metadata_head parts last hl (hhead parts hs)) hnv1
        | str s =>
          cases hl : parts.getLast? with
          | none => rw [hl] at h; simp at h
          | some last =>
            rw [hl] at h
            exact writeSegs_preserves_noVars _ d1 d2 _ h
              (dropLast_metadata_head parts last hl (hhead parts hs)) hnv1
        | arr xs =>
          cases hl : parts.getLast? with
          | none => rw [hl] at h; simp at h
          | some last =>
            rw [hl] at h
            exact writeSegs_preserves_noVars _ d1 d2 _ h
              (dropLast_metadata_head parts last hl (hhead parts hs)) hnv1

theorem store_child_set_preserves_noVars (ctx : Dict) (path key : String) (v : Json)
    (hhead : ∀ parts, split_path path = Except.ok parts → parts.head? ≠ some "vars")
    (hnv : alistContains ctx "vars" = false) :
    alistContains (store_child_set ctx path key v) "vars" = false := by
  rw [store_child_set]
  cases hs : split_path path with
  | error e => exact hnv
  | ok parts =>
    cases hr : resolveSegs (Json.obj ctx) parts path with
    | error e => simp [hr]; exact hnv
    | ok target =>
      cases target with
      | obj fs =>
        simp only [hr]
        cases hw : writeSegs ctx parts (Json.obj (alistSet fs key v)) with
        | ok ctx2 => exact writeSegs_preserves_noVars parts ctx ctx2 _ hw (hhead parts hs) hnv
        | error e => exact hnv
      | null => simp [hr]; exact hnv
      | bool b => simp [hr]; exact hnv
      | num n => simp [hr]; exact hnv
      | float q => simp [hr]; exact hnv
      | str s => simp [hr]; exact hnv
      | arr xs => simp [hr]; exact hnv

def loopNoVars : LoopRes → Prop
  | LoopRes.ok _ c => alistContains c "vars" = false
  | LoopRes.err _ _ c => alistContains c "vars" = false

def ctxHasNoVars : ExecOutcome → Prop
  | ExecOutcome.done _ c _ => alistContains c "vars" = false
  | ExecOutcome.err _ _ c => alistContains c "vars" = false

theorem out_loop_preserves_noVars (outs : List (String × String)) (pk pp : String)
    (pim : Bool) (res : Dict)
    (hhead : ∀ parts, split_path pp = Except.ok parts → parts.head? ≠ some "vars") :
    ∀ (vars ctx : Dict),
      outs.all (fun kv => !pyStartsWith kv.1 "vars.") = true →
      alistContains ctx "vars" = false →
      loopNoVars (out_loop pk pp pim res outs vars ctx) := by
  induction outs with
  | nil =>
    intro vars ctx _ hnv
    simpa [out_loop, loopNoVars] using hnv
  | cons kv rest ih =>
    intro vars ctx houts hnv
    obtain ⟨key, template⟩ := kv
    simp only [List.all_cons, Bool.and_eq_true, Bool.not_eq_true'] at houts
    obtain ⟨hk1, hrest⟩ := houts
    rw [out_loop, hk1]
    simp only [Bool.false_eq_true, if_false]
    by_cases h2 : (key == pk || pyEndsWith key "_key") = true
    · rw [if_pos h2]
      exact ih vars ctx (by simpa using hrest) hnv
    · rw [if_neg h2]
      by_cases h3 : alistContains res key = true
      · rw [if_pos h3]
        cases pim with
        | true =>
          simp only [if_true]
          refine ih _ _ (by simpa using hrest) ?_
          exact store_child_set_preserves_noVars ctx pp key (dictGetD res key) hhead hnv
        | false =>
          simp only [Bool.false_eq_true, if_false]
          exact ih vars ctx (by simpa using hrest) hnv
      · rw [if_neg h3]
        cases hr : render_string template vars ctx with
        | error e => simpa [loopNoVars] using hnv
        | ok rv =>
          obtain ⟨rendered, vars1⟩ := rv
          simp only []
          cases pim with
          | true =>
            simp only [if_true]
            refine ih _ _ (by simpa using hrest) ?_
            exact store_child_set_preserves_noVars ctx pp key rendered hhead hnv
          | false =>
            simp only [Bool.false_eq_true, if_false]
            exact ih _ ctx (by simpa using hrest) hnv

theorem node_finish_preserves_noVars (node : ExecuteNode) (pk pp : String)
    (pim : Bool) (res : Dict) (vars ctx : Dict)
    (houts : node.outputs.all (fun kv => !pyStartsWith kv.1 "vars.") = true)
    (hhead : ∀ parts, split_path pp = Except.ok parts → parts.head? ≠ some "vars")
    (hnv : alistContains ctx "vars" = false) :
    ctxHasNoVars (node_finish node pk pp pim res vars ctx) := by
  rw [node_finish]
  have hl := out_loop_preserves_noVars node.outputs pk pp pim res hhead vars ctx houts hnv
  cases hlr : out_loop pk pp pim res node.outputs vars ctx with
  | ok v c =>
    rw [hlr] at hl
    simpa [ctxHasNoVars] using hl
  | err e v c =>
    rw [hlr] at hl
    simpa [ctxHasNoVars] using hl

theorem reconcile_preserves_noVars (node : ExecuteNode) (vars ctx : Dict)
    (ts : String) (res : Dict)
    (houts : node.outputs.all (fun kv => !pyStartsWith kv.1 "vars.") = true)
    (hnv : alistContains ctx "vars" = false)
    (hprim : ∀ pk ppv vars1 pp, select_primary node.outputs res = some pk →
      render_string (lookupTemplate node.outputs pk) vars ctx = Except.ok (ppv, vars1) →
      ppv = Json.str pp →
      (pyStartsWith pp "vars." = false ∧
       ∀ parts, split_path pp = Except.ok parts → parts.head? ≠ some "vars")) :
    ctxHasNoVars (reconcile_outputs node vars ctx ts res) := by
  rw [reconcile_outputs]
  cases hsel : select_primary node.outputs res with
  | none => simp only []; exact hnv
  | some pk =>
    simp only []
    cases hr : render_string (lookupTemplate node.outputs pk) vars ctx with
    | error e => simp only []; exact hnv
    | ok rv =>
      obtain ⟨ppv, vars1⟩ := rv
      simp only []
      cases ppv with
      | str pp =>
        obtain ⟨hps, hhead⟩ := hprim pk (Json.str pp) vars1 pp hsel hr rfl
        simp only [hps, Bool.false_eq_true, if_false]
        cases hpg : prov_go node.outputs vars1 ctx with
        | error e => simp only []; exact hnv
        | ok pv =>
          obtain ⟨prov, vars2⟩ := pv
          simp only []
          cases hw : write_with_metadata ctx pp (dictGetD res pk) ts prov with
          | error e => simp only []; exact hnv
          | ok ctx3 =>
            simp only []
            have hnv3 := wwm_preserves_noVars ctx ctx3 pp ts _ prov hw hhead hnv
            cases hrs : resolve_path ctx3 pp true Json.null with
            | error e => simp only []; exact hnv3
            | ok stored =>
              simp only []
              exact node_finish_preserves_noVars node pk pp (isObj stored) res
                vars2 ctx3 houts hhead hnv3
      | null => simp only []; exact hnv
      | bool b => simp only []; exact hnv
      | num n => simp only []; exact hnv
      | float q => simp only []; exact hnv
      | arr xs => simp only []; exact hnv
      | obj fs => simp only []; exact hnv

/-- C9 amended: the bank is installed at `context["vars"]` before the
capability call and popped on every exit path of the call (deleting any
pre-existing persisted snapshot); but output persistence *after* the pop
re-creates the top-level `"vars"` key whenever an output key or the
rendered primary destination starts with `vars.` — so the claim holds only
for nodes without `vars.`-prefixed outputs and whose primary destination
does not live under `vars`, on every exit path from the capability call
onwards (success or raise). -/
theorem spec_c9_amended (caps : Caps) (f : CapFn) (node : ExecuteNode)
    (vars ctx vars3 ri ctxA : Dict) (res : Except PyErr Json) (ts : String)
    (hsc : skip_check node vars ctx = Except.ok none)
    (himp : ¬ importModulePart node.node = "")
    (hcaps : caps node.node = Except.ok f)
    (hri : render_inputs node.inputs vars ctx = Except.ok (ri, vars3))
    (hcall : f (alistSet ctx "vars" (Json.obj vars3)) ri = (ctxA, res))
    (houts : node.outputs.all (fun kv => !pyStartsWith kv.1 "vars.") = true)
    (hprim : ∀ resObj pk ppv vars1 pp, res = Except.ok (Json.obj resObj) →
      select_primary node.outputs resObj = some pk →
      render_string (lookupTemplate node.outputs pk) (capVarsAfter ctxA vars3)
        (alistPop ctxA "vars") = Except.ok (ppv, vars1) →
      ppv = Json.str pp →
      (pyStartsWith pp "vars." = false ∧
       ∀ parts, split_path pp = Except.ok parts → parts.head? ≠ some "vars")) :
    ctxHasNoVars (execute_node caps node vars ctx ts) := by
  rw [execute_node, hsc]
  simp only [if_neg himp]
  rw [hcaps]
  simp only []
  rw [hri]
  simp only [hcall]
  have hpop : alistContains (alistPop ctxA "vars") "vars" = false :=
    alistContains_pop_self ctxA "vars"
  cases res with
  | error e => exact hpop
  | ok j =>
    cases j with
    | obj resObj =>
      exact reconcile_preserves_noVars node (capVarsAfter ctxA vars3)
        (alistPop ctxA "vars") ts resObj houts hpop
        (fun pk ppv vars1 pp hsel hr hppv =>
          hprim resObj pk ppv vars1 pp rfl hsel hr hppv)
    | null => exact hpop
    | bool b => exact hpop
    | num n => exact hpop
    | float q => exact hpop
    | str s => exact hpop
    | arr xs => exact hpop

/-- C9 counterexample: a non-skipped node whose second output key is
`"vars.y"`.  The pre-existing persisted `"vars"` snapshot is indeed deleted
by the `finally` pop, but the output loop's `write_path(context, "vars.y",
…)` re-creates the top-level `"vars"` key, which is present when
`execute_node` returns — refuting "the document's top-level `vars` key is
absent when execute_node returns". -/
theorem spec_c9_counterexample :
    execute_node
      (fun s => if s = "m.g" then
        Except.ok (fun c _ => (c, Except.ok (Json.obj [("out", Json.num 1)])))
        else Except.error (PyErr.nodeImportFailed s))
      ⟨"n9", "m.g", [], [("out", "dest"), ("vars.y", "7")], false⟩
      [] [("vars", Json.obj [("old", Json.num 0)])] "TS" =
      ExecOutcome.done [("y", Json.str "7")]
        [("dest", Json.num 1),
         ("dest_metadata", Json.obj [("created_at", Json.str "TS")]),
         ("vars", Json.obj [("y", Json.str "7")])]
        [("status", Json.str "completed"), ("outputs", Json.arr [Json.str "out"])] ∧
    alistContains
      [("dest", Json.num 1),
       ("dest_metadata", Json.obj [("created_at", Json.str "TS")]),
       ("vars", Json.obj [("y", Json.str "7")])] "vars" = true :=
  ⟨rfl, rfl⟩

/-- Witness for the amended C9: a node with no `vars.` outputs, run against
a document carrying a stale `"vars"` snapshot; the returned document has no
`"vars"` key. -/
theorem spec_c9_amended_witness :
    ctxHasNoVars (execute_node
      (fun s => if s = "m.f" then
        Except.ok (fun c _ => (c, Except.ok (Json.obj [("res", Json.num 5)])))
        else Except.error (PyErr.nodeImportFailed s))
      ⟨"n", "m.f", [], [("res", "dest")], false⟩ []
      [("vars", Json.obj [("old", Json.num 0)])] "T1") :=
  spec_c9_amended
    (fun s => if s = "m.f" then
      Except.ok (fun c _ => (c, Except.ok (Json.obj [("res", Json.num 5)])))
      else Except.error (PyErr.nodeImportFailed s))
    (fun c _ => (c, Except.ok (Json.obj [("res", Json.num 5)])))
    ⟨"n", "m.f", [], [("res", "dest")], false⟩
    [] [("vars", Json.obj [("old", Json.num 0)])] [] []
    [("vars", Json.obj [])]
    (Except.ok (Json.obj [("res", Json.num 5)])) "T1"
    rfl (by decide) rfl rfl rfl rfl
    (by
      intro resObj pk ppv vars1 pp hres hsel hr hppv
      simp at hres
      subst hres
      simp [select_primary, alistContains, alistGet?, List.find?] at hsel
      subst hsel
      have hr2 : render_string (lookupTemplate
          (⟨"n", "m.f", [], [("res", "dest")], false⟩ : ExecuteNode).outputs "res")
          (capVarsAfter [("vars", Json.obj [])] [])
          (alistPop [("vars", Json.obj [])] "vars") =
          Except.ok (Json.str "dest", []) := rfl
      rw [hr2] at hr
      simp at hr
      obtain ⟨hv1, hv2⟩ := hr
      subst hv1
      simp at hppv
      subst hppv
      refine ⟨rfl, ?_⟩
      intro parts hp
      have : split_path "dest" = Except.ok ["dest"] := rfl
      rw [this] at hp
      simp at hp
      subst hp
      simp)

/-! ## C2 — primary-output selection and the "no matching outputs" error -/

def isNoMatch : PyErr → Bool
  | PyErr.nodeNoMatchingOutputs _ => true
  | _ => false

theorem split_path_err (path : String) (e : PyErr)
    (h : split_path path = Except.error e) : e = PyErr.valueErrorEmptyPath := by
  rw [split_path] at h
  by_cases hc : pyStrip path = ""
  · simp [hc] at h; exact h.symm
  · simp [hc] at h

theorem resolveSegs_err (parts : List String) (cur : Json) (path : String)
    (e : PyErr) (h : resolveSegs cur parts path = Except.error e) :
    isNoMatch e = false := by
  induction parts generalizing cur with
  | nil => simp [resolveSegs] at h
  | cons p ps ih =>
    cases cur with
    | obj fs =>
      rw [resolveSegs] at h
      cases hg : alistGet? fs p with
      | some v => rw [hg] at h; simp only [] at h; exact ih v h
      | none => rw [hg] at h; simp at h; subst h; rfl
    | null => simp [resolveSegs] at h; subst h; rfl
    | bool b => simp [resolveSegs] at h; subst h; rfl
    | num n => simp [resolveSegs] at h; subst h; rfl
    | float q => simp [resolveSegs] at h; subst h; rfl
    | str s => simp [resolveSegs] at h; subst h; rfl
    | arr xs => simp [resolveSegs] at h; subst h; rfl

theorem resolve_path_err (d : Dict) (path : String) (b : Bool) (dv : Json)
    (e : PyErr) (h : resolve_path d path b dv = Except.error e) :
    isNoMatch e = false := by
  rw [resolve_path] at h
  cases hs : split_path path with
  | error e2 =>
    rw [hs] at h
    simp at h
    subst h
    rw [split_path_err path e2 hs]
    rfl
  | ok parts =>
    rw [hs] at h
    simp only [] at h
    cases hr : resolveSegs (Json.obj d) parts path with
    | ok v => rw [hr] at h; simp at h
    | error e2 =>
      rw [hr] at h
      cases b with
      | true => simp at h; subst h; exact resolveSegs_err parts _ path e2 hr
      | false => simp at h

theorem increment_go_err (parts : List String) (fields : Dict) (name : String)
    (post : Bool) (e : PyErr)
    (h : increment_go fields parts name post = Except.error e) :
    isNoMatch e = false := by
  induction parts generalizing fields with
  | nil => simp [increment_go] at h; subst h; rfl
  | cons k rest ih =>
    cases rest with
    | nil =>
      rw [increment_go] at h
      cases hg : alistGet? fields k with
      | none => rw [hg] at h; simp at h; subst h; rfl
      | some v =>
        rw [hg] at h
        cases v with
        | num n => simp at h
        | float q => simp at h
        | bool b => simp at h
        | null => simp at h; subst h; rfl
        | str s => simp at h; subst h; rfl
        | arr xs => simp at h; subst h; rfl
        | obj fs => simp at h; subst h; rfl
    | cons r1 rs =>
      simp only [increment_go] at h
      cases hg : alistGet? fields k with
      | none => rw [hg] at h; simp at h; subst h; rfl
      | some v =>
        rw [hg] at h
        cases v with
        | obj cf =>
          simp only [] at h
          cases hi : increment_go cf (r1 :: rs) name post with
          | error e2 => rw [hi] at h; simp at h; subst h; exact ih cf hi
          | ok pr => rw [hi] at h; simp at h
        | null =>
          cases rs with
          | nil => simp at h; subst h; rfl
          | cons a as => simp at h; subst h; rfl
        | bool b =>
          cases rs with
          | nil => simp at h; subst h; rfl
          | cons a as => simp at h; subst h; rfl
        | num n =>
          cases rs with
          | nil => simp at h; subst h; rfl
          | cons a as => simp at h; subst h; rfl
        | float q =>
          cases rs with
          | nil => simp at h; subst h; rfl
          | cons a as => simp at h; subst h; rfl
        | str s =>
          cases rs with
          | nil => simp at h; subst h; rfl
          | cons a as => simp at h; subst h; rfl
        | arr xs =>
          cases rs with
          | nil => simp at h; subst h; rfl
          | cons a as => simp at h; subst h; rfl

theorem rmGo_err (parts : List String) (cur : Json) (path : String) (e : PyErr)
    (h : rmGo cur parts path = Except.error e) : isNoMatch e = false := by
  induction parts generalizing cur with
  | nil => simp [rmGo] at h
  | cons p ps ih =>
    cases cur with
    | obj fs =>
      rw [rmGo] at h
      cases hg : alistGet? fs p with
      | some v => rw [hg] at h; simp only [] at h; exact ih v h
      | none => rw [hg] at h; simp at h; subst h; rfl
    | null => simp [rmGo] at h; subst h; rfl
    | bool b => simp [rmGo] at h; subst h; rfl
    | num n => simp [rmGo] at h; subst h; rfl
    | float q => simp [rmGo] at h; subst h; rfl
    | str s => simp [rmGo] at h; subst h; rfl
    | arr xs => simp [rmGo] at h; subst h; rfl

theorem evaluate_expression_err (expr : String) (vars ctx : Dict) (e : PyErr)
    (h : evaluate_expression expr vars ctx = Except.error e) :
    isNoMatch e = false := by
  rw [evaluate_expression] at h
  by_cases h1 : expr = ""
  · simp [h1] at h; subst h; rfl
  · rw [if_neg h1] at h
    by_cases h2 : pyStartsWith expr "++" = true
    · rw [if_pos h2] at h
      exact increment_go_err _ _ _ _ e h
    · rw [if_neg h2] at h
      by_cases h3 : pyEndsWith expr "++" = true
      · rw [if_pos h3] at h
        exact increment_go_err _ _ _ _ e h
      · rw [if_neg h3] at h
        by_cases h4 : pyStartsWith expr "vars." = true
        · rw [if_pos h4] at h
          cases hr : resolve_mapping_path vars (strDrop expr 5) with
          | error e2 => rw [hr] at h; simp at h; subst h; exact rmGo_err _ _ _ e2 hr
          | ok v => rw [hr] at h; simp at h
        · rw [if_neg h4] at h
          by_cases h5 : pyStartsWith expr "store." = true
          · rw [if_pos h5] at h
            cases hr : resolve_path ctx (strDrop expr 6) true Json.null with
            | ok v => rw [hr] at h; simp at h
            | error e2 =>
              rw [hr] at h
              cases e2 with
              | pathNotFound p seg => simp at h; subst h; rfl
              | valueErrorEmptyPath =>
                simp at h; subst h
                exact resolve_path_err ctx _ true Json.null _ hr
              | typeErrorExpectedDict part =>
                simp at h; subst h
                exact resolve_path_err ctx _ true Json.null _ hr
              | indexError =>
                simp at h; subst h
                exact resolve_path_err ctx _ true Json.null _ hr
              | attributeError =>
                simp at h; subst h
                exact resolve_path_err ctx _ true Json.null _ hr
              | templateEmptyExpr =>
                simp at h; subst h
                exact resolve_path_err ctx _ true Json.null _ hr
              | templateUnknownPlaceholder x =>
                simp at h; subst h
                exact resolve_path_err ctx _ true Json.null _ hr
              | templateVarNotFound x =>
                simp at h; subst h
                exact resolve_path_err ctx _ true Json.null _ hr
              | templateVarNotMapping x =>
                simp at h; subst h
                exact resolve_path_err ctx _ true Json.null _ hr
              | templateIncrementBadName =>
                simp at h; subst h
                exact resolve_path_err ctx _ true Json.null _ hr
              | templateIncrementMissing x =>
                simp at h; subst h
                exact resolve_path_err ctx _ true Json.null _ hr
              | templateIncrementNotNumeric x =>
                simp at h; subst h
                exact resolve_path_err ctx _ true Json.null _ hr
              | templateStoreMissing x y =>
                simp at h; subst h
                exact resolve_path_err ctx _ true Json.null _ hr
              | templatePythonEvalFailed x =>
                simp at h; subst h
                exact resolve_path_err ctx _ true Json.null _ hr
              | templatePythonNotBool =>
                simp at h; subst h
                exact resolve_path_err ctx _ true Json.null _ hr
              | condUnsupportedComparator x =>
                simp at h; subst h
                exact resolve_path_err ctx _ true Json.null _ hr
              | condMissingCompareTo =>
                simp at h; subst h
                exact resolve_path_err ctx _ true Json.null _ hr
              | nodeBadDottedPath x =>
                simp at h; subst h
                exact resolve_path_err ctx _ true Json.null _ hr
              | nodeImportFailed x =>
                simp at h; subst h
                exact resolve_path_err ctx _ true Json.null _ hr
              | nodeNotMapping x =>
                simp at h; subst h
                exact resolve_path_err ctx _ true Json.null _ hr
              | nodeNoMatchingOutputs x =>
                simp at h; subst h
                exact resolve_path_err ctx _ true Json.null _ hr
              | nodePrimaryPathNotString x =>
                simp at h; subst h
                exact resolve_path_err ctx _ true Json.null _ hr
              | capabilityError x =>
                simp at h; subst h
                exact resolve_path_err ctx _ true Json.null _ hr
              | workflowConditionalFailed x =>
                simp at h; subst h
                exact resolve_path_err ctx _ true Json.null _ hr
              | workflowUnknownTarget x y =>
                simp at h; subst h
                exact resolve_path_err ctx _ true Json.null _ hr
          · rw [if_neg h5] at h
            by_cases h6 : alistContains vars expr = true
            · simp [h6] at h
            · rw [if_neg h6] at h
              cases hcl : coerce_literal expr with
              | null => rw [hcl] at h; simp at h; subst h; rfl
              | bool b => rw [hcl] at h; simp at h
              | num n => rw [hcl] at h; simp at h
              | float q => rw [hcl] at h; simp at h
              | str s => rw [hcl] at h; simp at h
              | arr xs => rw [hcl] at h; simp at h
              | obj fs => rw [hcl] at h; simp at h

theorem render_go_err (chunks : List Chunk) :
    ∀ (vars ctx : Dict) (e : PyErr),
      render_go chunks vars ctx = Except.error e → isNoMatch e = false := by
  induction chunks with
  | nil => intro vars ctx e h; simp [render_go] at h
  | cons c rest ih =>
    intro vars ctx e h
    cases c with
    | text ch =>
      rw [render_go] at h
      cases hr : render_go rest vars ctx with
      | error e2 => rw [hr] at h; simp at h; subst h; exact ih vars ctx e2 hr
      | ok tup => rw [hr] at h; simp at h
    | expr content =>
      rw [render_go] at h
      cases he : evaluate_expression (pyStrip (String.mk content)) vars ctx with
      | error e2 =>
        rw [he] at h; simp at h; subst h
        exact evaluate_expression_err _ vars ctx e2 he
      | ok pr =>
        obtain ⟨v, vars1⟩ := pr
        rw [he] at h
        simp only [] at h
        cases hr : render_go rest vars1 ctx with
        | error e2 => rw [hr] at h; simp at h; subst h; exact ih vars1 ctx e2 hr
        | ok tup => rw [hr] at h; simp at h

theorem render_string_err (template : String) (vars ctx : Dict) (e : PyErr)
    (h : render_string template vars ctx = Except.error e) :
    isNoMatch e = false := by
  rw [render_string] at h
  split at h
  · simp at h
  · split at h
    · rename_i e2 heq
      simp at h
      subst h
      exact render_go_err _ vars ctx e2 heq
    · split at h <;> simp at h

theorem prov_go_err (outs : List (String × String)) :
    ∀ (vars ctx : Dict) (e : PyErr),
      prov_go outs vars ctx = Except.error e → isNoMatch e = false := by
  induction outs with
  | nil => intro vars ctx e h; simp [prov_go] at h
  | cons kv rest ih =>
    intro vars ctx e h
    obtain ⟨k, template⟩ := kv
    rw [prov_go] at h
    by_cases hk : pyEndsWith k "_key" = true
    · rw [if_pos hk] at h
      cases hr : render_string template vars ctx with
      | error e2 =>
        rw [hr] at h; simp at h; subst h
        exact render_string_err template vars ctx e2 hr
      | ok pr =>
        obtain ⟨r, vars1⟩ := pr
        rw [hr] at h
        simp only [] at h
        cases hp : prov_go rest vars1 ctx with
        | error e2 => rw [hp] at h; simp at h; subst h; exact ih vars1 ctx e2 hp
        | ok tup => rw [hp] at h; simp at h
    · rw [if_neg hk] at h
      exact ih vars ctx e h

theorem writeSegs_err (parts : List String) :
    ∀ (d : Dict) (v : Json) (e : PyErr),
      writeSegs d parts v = Except.error e → isNoMatch e = false := by
  induction parts with
  | nil => intro d v e h; simp [writeSegs] at h; subst h; rfl
  | cons k rest ih =>
    intro d v e h
    cases rest with
    | nil => simp [writeSegs] at h
    | cons r1 rs =>
      rw [writeSegs] at h
      cases hcf : childFor d k with
      | obj cf =>
        rw [hcf] at h
        simp only [] at h
        cases hw : writeSegs cf (r1 :: rs) v with
        | error e2 => rw [hw] at h; simp at h; subst h; exact ih cf v e2 hw
        | ok cf2 => rw [hw] at h; simp at h
      | null => rw [hcf] at h; simp at h; subst h; rfl
      | bool b => rw [hcf] at h; simp at h; subst h; rfl
      | num n => rw [hcf] at h; simp at h; subst h; rfl
      | float q => rw [hcf] at h; simp at h; subst h; rfl
      | str s => rw [hcf] at h; simp at h; subst h; rfl
      | arr xs => rw [hcf] at h; simp at h; subst h; rfl

theorem write_path_err (d : Dict) (path : String) (v : Json) (e : PyErr)
    (h : write_path d path v = Except.error e) : isNoMatch e = false := by
  rw [write_path] at h
  cases hs : split_path path with
  | error e2 =>
    rw [hs] at h; simp at h; subst h
    rw [split_path_err path e2 hs]; rfl
  | ok parts =>
    rw [hs] at h
    simp only [] at h
    exact writeSegs_err parts d v e h

theorem wwm_err (d : Dict) (path : String) (v : Json) (ts : String) (prov : Dict)
    (e : PyErr) (h : write_with_metadata d path v ts prov = Except.error e) :
    isNoMatch e = false := by
  rw [write_with_metadata] at h
  cases hs : split_path path with
  | error e2 =>
    rw [hs] at h; simp at h; subst h
    rw [split_path_err path e2 hs]; rfl
  | ok parts =>
    rw [hs] at h
    simp only [] at h
    cases hw : writeSegs d parts v with
    | error e2 => rw [hw] at h; simp at h; subst h; exact writeSegs_err parts d v e2 hw
    | ok d1 =>
      rw [hw] at h
      simp only [] at h
      cases hr : resolveSegs (Json.obj d1) parts path with
      | error e2 =>
        rw [hr] at h; simp at h; subst h
        exact resolveSegs_err parts _ path e2 hr
      | ok target =>
        rw [hr] at h
        simp only [] at h
        cases target with
        | obj tf => exact writeSegs_err parts d1 _ e h
        | null =>
          cases hl : parts.getLast? with
          | none => rw [hl] at h; simp at h; subst h; rfl
          | some last => rw [hl] at h; exact writeSegs_err _ d1 _ e h
        | bool b =>
          cases hl : parts.getLast? with
          | none => rw [hl] at h; simp at h; subst h; rfl
          | some last => rw [hl] at h; exact writeSegs_err _ d1 _ e h
        | num n =>
          cases hl : parts.getLast? with
          | none => rw [hl] at h; simp at h; subst h; rfl
          | some last => rw [hl] at h; exact writeSegs_err _ d1 _ e h
        | float q =>
          cases hl : parts.getLast? with
          | none => rw [hl] at h; simp at h; subst h; rfl
          | some last => rw [hl] at h; exact writeSegs_err _ d1 _ e h
        | str s =>
          cases hl : parts.getLast? with
          | none => rw [hl] at h; simp at h; subst h; rfl
          | some last => rw [hl] at h; exact writeSegs_err _ d1 _ e h
        | arr xs =>
          cases hl : parts.getLast? with
          | none => rw [hl] at h; simp at h; subst h; rfl
          | some last => rw [hl] at h; exact writeSegs_err _ d1 _ e h

def loopNotNoMatch : LoopRes → Prop
  | LoopRes.ok _ _ => True
  | LoopRes.err e _ _ => isNoMatch e = false

def outcomeNotNoMatch : ExecOutcome → Prop
  | ExecOutcome.done _ _ _ => True
  | ExecOutcome.err e _ _ => isNoMatch e = false

theorem out_loop_notNoMatch (outs : List (String × String)) (pk pp : String)
    (pim : Bool) (res : Dict) :
    ∀ (vars ctx : Dict), loopNotNoMatch (out_loop pk pp pim res outs vars ctx) := by
  induction outs with
  | nil => intro vars ctx; simp [out_loop, loopNotNoMatch]
  | cons kv rest ih =>
    intro vars ctx
    obtain ⟨key, template⟩ := kv
    rw [out_loop]
    by_cases h1 : pyStartsWith key "vars." = true
    · rw [h1]
      simp only [if_true]
      cases hr : render_string template vars ctx with
      | error e =>
        simpa [loopNotNoMatch] using render_string_err template vars ctx e hr
      | ok rv =>
        obtain ⟨rendered, vars1⟩ := rv
        simp only []
        cases hw : write_path ctx key rendered with
        | error e =>
          simpa [loopNotNoMatch] using write_path_err ctx key rendered e hw
        | ok ctx2 => exact ih _ ctx2
    · simp only [h1, Bool.false_eq_true, if_false]
      by_cases h2 : (key == pk || pyEndsWith key "_key") = true
      · rw [if_pos h2]; exact ih vars ctx
      · rw [if_neg h2]
        by_cases h3 : alistContains res key = true
        · rw [if_pos h3]
          cases pim with
          | true => exact ih _ _
          | false => exact ih vars ctx
        · rw [if_neg h3]
          cases hr : render_string template vars ctx with
          | error e =>
            simpa [loopNotNoMatch] using render_string_err template vars ctx e hr
          | ok rv =>
            obtain ⟨rendered, vars1⟩ := rv
            simp only []
            cases pim with
            | true => exact ih _ _
            | false => exact ih _ _

theorem node_finish_notNoMatch (node : ExecuteNode) (pk pp : String) (pim : Bool)
    (res : Dict) (vars ctx : Dict) :
    outcomeNotNoMatch (node_finish node pk pp pim res vars ctx) := by
  rw [node_finish]
  have hl := out_loop_notNoMatch node.outputs pk pp pim res vars ctx
  cases hlr : out_loop pk pp pim res node.outputs vars ctx with
  | ok v c => simp [outcomeNotNoMatch]
  | err e v c =>
    rw [hlr] at hl
    simpa [outcomeNotNoMatch, loopNotNoMatch] using hl

theorem reconcile_some_notNoMatch (node : ExecuteNode) (vars ctx : Dict)
    (ts : String) (res : Dict) (pk : String)
    (hsel : select_primary node.outputs res = some pk) :
    outcomeNotNoMatch (reconcile_outputs node vars ctx ts res) := by
  rw [reconcile_outputs, hsel]
  simp only []
  cases hr : render_string (lookupTemplate node.outputs pk) vars ctx with
  | error e =>
    simpa [outcomeNotNoMatch] using
      render_string_err (lookupTemplate node.outputs pk) vars ctx e hr
  | ok rv =>
    obtain ⟨ppv, vars1⟩ := rv
    simp only []
    cases ppv with
    | str pp =>
      cases hpg : prov_go node.outputs vars1 ctx with
      | error e =>
        simpa [outcomeNotNoMatch] using prov_go_err node.outputs vars1 ctx e hpg
      | ok pv =>
        obtain ⟨prov, vars2⟩ := pv
        simp only []
        by_cases hps : pyStartsWith pp "vars." = true
        · rw [if_pos hps]
          cases hw : write_path ctx pp (dictGetD res pk) with
          | error e =>
            simpa [outcomeNotNoMatch] using write_path_err ctx pp _ e hw
          | ok ctx3 =>
            simp only []
            cases hrs : resolve_path ctx3 pp true Json.null with
            | error e =>
              simpa [outcomeNotNoMatch] using resolve_path_err ctx3 pp true _ e hrs
            | ok stored => exact node_finish_notNoMatch node pk pp _ res _ ctx3
        · rw [if_neg hps]
          cases hw : write_with_metadata ctx pp (dictGetD res pk) ts prov with
          | error e =>
            simpa [outcomeNotNoMatch] using wwm_err ctx pp _ ts prov e hw
          | ok ctx3 =>
            simp only []
            cases hrs : resolve_path ctx3 pp true Json.null with
            | error e =>
              simpa [outcomeNotNoMatch] using resolve_path_err ctx3 pp true _ e hrs
            | ok stored => exact node_finish_notNoMatch node pk pp _ res _ ctx3
    | null => simp [outcomeNotNoMatch, isNoMatch]
    | bool b => simp [outcomeNotNoMatch, isNoMatch]
    | num n => simp [outcomeNotNoMatch, isNoMatch]
    | float q => simp [outcomeNotNoMatch, isNoMatch]
    | arr xs => simp [outcomeNotNoMatch, isNoMatch]
    | obj fs => simp [outcomeNotNoMatch, isNoMatch]

/-- C2 counterexample: a node whose only declared output key is `"x_key"`
(no non-`_key` key exists) and whose capability returns exactly that key.
The claim predicts a fatal `NodeExecutionError`; the code instead selects
`"x_key"` itself as the primary output, writes it (with metadata and with
itself as provenance) to its rendered destination, and completes. -/
theorem spec_c2_counterexample :
    execute_node
      (fun s => if s = "m.f" then
        Except.ok (fun c _ => (c, Except.ok (Json.obj [("x_key", Json.num 1)])))
        else Except.error (PyErr.nodeImportFailed s))
      ⟨"n1", "m.f", [], [("x_key", "dest")], false⟩ [] [] "TS" =
      ExecOutcome.done []
        [("dest", Json.num 1),
         ("dest_metadata",
          Json.obj [("created_at", Json.str "TS"), ("x_key", Json.str "dest")])]
        [("status", Json.str "completed"),
         ("outputs", Json.arr [Json.str "x_key"])] := rfl

/-- C2 amended: the primary output is the *first declared output key (in
declaration order) present in the returned mapping* — regardless of a
`_key` suffix or a `vars.` prefix, and with no exactly-one requirement —
and `execute_node` raises `NodeExecutionError("returned no matching
outputs")` precisely when *no* declared output key at all is present in
the result. -/
theorem spec_c2_amended (caps : Caps) (f : CapFn) (node : ExecuteNode)
    (vars ctx vars3 ri ctxA resObj : Dict) (ts : String)
    (hsc : skip_check node vars ctx = Except.ok none)
    (himp : ¬ importModulePart node.node = "")
    (hcaps : caps node.node = Except.ok f)
    (hri : render_inputs node.inputs vars ctx = Except.ok (ri, vars3))
    (hcall : f (alistSet ctx "vars" (Json.obj vars3)) ri =
      (ctxA, Except.ok (Json.obj resObj))) :
    select_primary node.outputs resObj = none ↔
      execute_node caps node vars ctx ts =
        ExecOutcome.err (PyErr.nodeNoMatchingOutputs node.id)
          (capVarsAfter ctxA vars3) (alistPop ctxA "vars") := by
  have hred : execute_node caps node vars ctx ts =
      reconcile_outputs node (capVarsAfter ctxA vars3) (alistPop ctxA "vars")
        ts resObj := by
    rw [execute_node, hsc]
    simp only [if_neg himp]
    rw [hcaps]
    simp only []
    rw [hri]
    simp only [hcall]
  constructor
  · intro hnone
    rw [hred, reconcile_outputs, hnone]
  · intro heq
    cases hsel : select_primary node.outputs resObj with
    | none => rfl
    | some pk =>
      exfalso
      have hnm := reconcile_some_notNoMatch node (capVarsAfter ctxA vars3)
        (alistPop ctxA "vars") ts resObj pk hsel
      rw [← hred, heq] at hnm
      simp [outcomeNotNoMatch, isNoMatch] at hnm

/-- Witness for the amended C2: a capability returning a mapping containing
none of the declared output keys; `execute_node` raises exactly the
"no matching outputs" error. -/
theorem spec_c2_amended_witness :
    execute_node
      (fun s => if s = "m.f" then
        Except.ok (fun c _ => (c, Except.ok (Json.obj [("other", Json.num 1)])))
        else Except.error (PyErr.nodeImportFailed s))
      ⟨"n2", "m.f", [], [("a", "dest")], false⟩ [] [] "TS" =
      ExecOutcome.err (PyErr.nodeNoMatchingOutputs "n2")
        (capVarsAfter [("vars", Json.obj [])] []) (alistPop [("vars", Json.obj [])] "vars") :=
  (spec_c2_amended
    (fun s => if s = "m.f" then
      Except.ok (fun c _ => (c, Except.ok (Json.obj [("other", Json.num 1)])))
      else Except.error (PyErr.nodeImportFailed s))
    (fun c _ => (c, Except.ok (Json.obj [("other", Json.num 1)])))
    ⟨"n2", "m.f", [], [("a", "dest")], false⟩ [] [] [] []
    [("vars", Json.obj [])] [("other", Json.num 1)] "TS"
    rfl (by decide) rfl rfl rfl).mp rfl
